import Mathlib

/-!
Shallow embedding of the bounded-concurrency generation scheduler of
`src/App.tsx` (Youtube-video-maker): the job record store (`Scene`,
`updateScene`), the inline error classification of
`generateSingleImageWithRetry`, its rate-limit wait-time parsing, the
single-job retry driver, the batch orchestration (`handleRegenerateFailed`)
and a small-step interleaving model of `runConcurrentGeneration`.

Modelling conventions:
* TypeScript optional fields (`x?: T`) become `Option T`; a `Partial<Scene>`
  update becomes a `ScenePatch` whose fields distinguish "absent"
  (`none`) from "explicitly set to `undefined`" (`some none`).
* JavaScript string operations (`includes`, the `retry in ([\d.]+)s` regex
  match, `parseFloat`) are modelled character-exactly over `List Char`;
  `parseFloat` idealizes IEEE doubles to exact decimal arithmetic and models
  `NaN` as `none`.
* Wall-clock waits are idealized to their sequence of whole-second
  `statusMessage` ticks; real time itself is not modelled.
-/

namespace VideoMaker

/-- `textOverlay` field shape from `src/types.ts`. -/
structure TextOverlay where
  heading : String
  points : List String
deriving DecidableEq

/-- The per-scene job record, from `Scene` in `src/types.ts`. -/
structure Scene where
  id : Nat
  narration : String
  visualDescription : String
  imagePrompt : String
  textOverlay : Option TextOverlay
  imageUrl : Option String
  isLoadingImage : Bool
  isLoadingTextOverlay : Option Bool
  isRefining : Option Bool
  error : Option String
  statusMessage : Option String
deriving DecidableEq

/-- A `Partial<Scene>` update object as passed to `updateScene`.  For a field
of TypeScript type `T` the outer `Option` is "is the key present in the update
object"; for optional fields the inner `Option` carries an explicit
`undefined` (`some none`), which the spread `{ ...s, ...updates }` does write. -/
structure ScenePatch where
  id : Option Nat := none
  narration : Option String := none
  visualDescription : Option String := none
  imagePrompt : Option String := none
  textOverlay : Option (Option TextOverlay) := none
  imageUrl : Option (Option String) := none
  isLoadingImage : Option Bool := none
  isLoadingTextOverlay : Option (Option Bool) := none
  isRefining : Option (Option Bool) := none
  error : Option (Option String) := none
  statusMessage : Option (Option String) := none
deriving DecidableEq

/-- The object spread `{ ...s, ...updates }` of `src/App.tsx` line 19. -/
def applyPatch (s : Scene) (p : ScenePatch) : Scene :=
  { id := p.id.getD s.id
    narration := p.narration.getD s.narration
    visualDescription := p.visualDescription.getD s.visualDescription
    imagePrompt := p.imagePrompt.getD s.imagePrompt
    textOverlay := p.textOverlay.getD s.textOverlay
    imageUrl := p.imageUrl.getD s.imageUrl
    isLoadingImage := p.isLoadingImage.getD s.isLoadingImage
    isLoadingTextOverlay := p.isLoadingTextOverlay.getD s.isLoadingTextOverlay
    isRefining := p.isRefining.getD s.isRefining
    error := p.error.getD s.error
    statusMessage := p.statusMessage.getD s.statusMessage }

/-- `updateScene` from `src/App.tsx` lines 18-20:
`setScenes(prev => prev.map(s => s.id === id ? { ...s, ...updates } : s))`. -/
def updateScene (scenes : List Scene) (id : Nat) (p : ScenePatch) : List Scene :=
  scenes.map (fun s => if s.id = id then applyPatch s p else s)

/-- JavaScript `haystack.includes(needle)` on `List Char`. -/
def listContains (l pat : List Char) : Bool :=
  pat.isPrefixOf l ||
    match l with
    | [] => false
    | _ :: t => listContains t pat

/-- JavaScript `haystack.includes(needle)` (case-sensitive substring test). -/
def strContains (s pat : String) : Bool :=
  listContains s.data pat.data

/-- The failure taxonomy of spec section 4.1, decided by the catch-block of
`generateSingleImageWithRetry` (`src/App.tsx` lines 127-188). -/
inductive FailureKind where
  | dailyQuotaExceeded
  | rateLimited
  | serviceOverloaded
  | authDenied
  | unknown
deriving DecidableEq

/-- The error-classification chain of `generateSingleImageWithRetry`
(`src/App.tsx` lines 132, 139, 162, 177), in source order:
daily-quota marker, then `"429"`/`"quota"`, then
`"503"`/`"overloaded"`/`"UNAVAILABLE"`, then `"403"`/`"PERMISSION_DENIED"`,
else unknown. -/
def classify (errMsg : String) : FailureKind :=
  if strContains errMsg "generate_requests_per_model_per_day" then .dailyQuotaExceeded
  else if strContains errMsg "429" || strContains errMsg "quota" then .rateLimited
  else if strContains errMsg "503" || strContains errMsg "overloaded"
         || strContains errMsg "UNAVAILABLE" then .serviceOverloaded
  else if strContains errMsg "403" || strContains errMsg "PERMISSION_DENIED" then .authDenied
  else .unknown

/-- Character class `[\d\.]` of the regex `/retry in ([\d\.]+)s/`. -/
def isNumChar (c : Char) : Bool :=
  c.isDigit || c = '.'

/-- The literal part of the regex `/retry in ([\d\.]+)s/`. -/
def retryLit : List Char := "retry in ".data

/-- Try the regex `/retry in ([\d\.]+)s/` anchored at the start of `cs`,
returning the capture group.  Backtracking inside `[\d\.]+` can never help:
every shorter run leaves a `[\d\.]` character (never `'s'`) as the next
input character, so only the maximal run is tried against the literal `s`. -/
def matchRetryAt (cs : List Char) : Option (List Char) :=
  if retryLit.isPrefixOf cs then
    let rest := cs.drop retryLit.length
    let run := rest.takeWhile isNumChar
    if run.isEmpty then none
    else
      match rest.drop run.length with
      | 's' :: _ => some run
      | _ => none
  else none

/-- Leftmost-match scan of `errMsg.match(/retry in ([\d\.]+)s/)`. -/
def findRetryCaptureAux : List Char → Option (List Char)
  | [] => none
  | c :: cs =>
    match matchRetryAt (c :: cs) with
    | some r => some r
    | none => findRetryCaptureAux cs

/-- `errMsg.match(/retry in ([\d\.]+)s/)`, returning the first capture group. -/
def findRetryCapture (m : String) : Option (List Char) :=
  findRetryCaptureAux m.data

/-- Decimal value of a digit string. -/
def digitsToNat (ds : List Char) : Nat :=
  ds.foldl (fun n c => 10 * n + (c.toNat - 48)) 0

/-- `Math.ceil(parseFloat(cap))` for a capture `cap` drawn from `[\d\.]+`,
with exact decimal arithmetic; `none` models `NaN` (capture with no leading
numeric literal, e.g. `"."`).  `parseFloat` reads the longest prefix of the
form `digits [. digits]` or `. digits`; the ceiling adds one exactly when the
fractional part is non-zero. -/
def parseFloatCeil (cap : List Char) : Option Nat :=
  match cap with
  | [] => none
  | c :: r =>
    if c.isDigit then
      let intD := cap.takeWhile Char.isDigit
      let fracD :=
        match cap.drop intD.length with
        | '.' :: r2 => r2.takeWhile Char.isDigit
        | _ => []
      some (digitsToNat intD + (if fracD.any (fun d => d ≠ '0') then 1 else 0))
    else if c = '.' then
      let fracD := r.takeWhile Char.isDigit
      if fracD.isEmpty then none
      else some (if fracD.any (fun d => d ≠ '0') then 1 else 0)
    else none

/-- `waitTimeMs` computation of the rate-limit branch (`src/App.tsx` lines
141-145): default 30000 ms when the regex does not match, else
`Math.ceil(parseFloat(capture)) * 1000 + 1000`; `none` models the `NaN`
produced when the capture (e.g. `"."`) parses to `NaN`. -/
def rateLimitWaitMs (msg : String) : Option Nat :=
  match findRetryCapture msg with
  | none => some 30000
  | some cap => (parseFloatCeil cap).map (fun n => n * 1000 + 1000)

/-- Outcome of one remote `generateSceneImage` call: resolves with a url or
rejects with an error message (`err.message || JSON.stringify(err)`). -/
inductive CallResult where
  | ok (url : String)
  | err (msg : String)
deriving DecidableEq

/-- Ghost tag recording through which terminating branch the driver returned. -/
inductive TerminalEvent where
  | success
  | dailyQuota
  | authDenied
  | unknownError
  | retriesExhausted
deriving DecidableEq

/-- `updateScene(id, {...})` payload at `src/App.tsx` line 123: loop entry. -/
def pStart (attempts : Nat) : ScenePatch :=
  { isLoadingImage := some true
    error := some none
    statusMessage := some (if 0 < attempts then some "Retrying..." else none) }

/-- `updateScene` payload at line 125: success. -/
def pSuccess (url : String) : ScenePatch :=
  { imageUrl := some (some url)
    isLoadingImage := some false
    statusMessage := some none }

/-- `updateScene` payload at line 134: daily quota exhausted. -/
def pDaily : ScenePatch :=
  { isLoadingImage := some false
    error := some (some "Daily Quota Exceeded")
    statusMessage := some (some "Daily Limit Reached") }

/-- `updateScene` payload at line 180: permission denied. -/
def pAuth : ScenePatch :=
  { isLoadingImage := some false
    error := some (some "Auth Failed")
    statusMessage := some none }

/-- `updateScene` payload at line 186: unclassified error. -/
def pFailed : ScenePatch :=
  { isLoadingImage := some false
    error := some (some "Failed")
    statusMessage := some none }

/-- `updateScene` payload at line 191: retry cap reached. -/
def pMaxRetries : ScenePatch :=
  { isLoadingImage := some false
    error := some (some "Max Retries Exceeded")
    statusMessage := some none }

/-- One countdown tick `updateScene` payload (lines 155 and 170). -/
def pTick (msg : String) : ScenePatch :=
  { statusMessage := some (some msg) }

/-- Remaining whole-second values shown by a countdown wait of `ms`
milliseconds, from `ceil(ms/1000)` down to `1`; `none` models a `NaN`
wait bound, whose `while (Date.now() < endTime)` loop never runs. -/
def waitTicks : Option Nat → List Nat
  | none => []
  | some ms => (List.range ((ms + 999) / 1000)).map (fun k => (ms + 999) / 1000 - k)

/-- Countdown message of the rate-limit wait (line 155). -/
def rateLimitTickMsg (remaining : Nat) : String :=
  "Rate limit hit. Retrying in " ++ toString remaining ++ "s..."

/-- Countdown message of the overload wait (line 170). -/
def overloadTickMsg (remaining : Nat) : String :=
  "Model busy (503). Retrying in " ++ toString remaining ++ "s..."

/-- What one driver run did: its final effect on its own scene record (the
driver only ever writes the record with its own id), the ordered list of
`updateScene` payloads it issued, the number of remote calls it made, the
terminating branch, and whether the `AuthDenied` side channel
(`setError`/`setHasApiKey(false)`, lines 178-179) fired. -/
structure DriverOutcome where
  scene : Scene
  trace : List ScenePatch
  calls : Nat
  event : TerminalEvent
  authSignal : Bool
deriving DecidableEq

/-- Maximum attempt count of the driver (`src/App.tsx` line 119). -/
def maxAttempts : Nat := 5

/-- Body of the `while (attempts < maxAttempts)` loop of
`generateSingleImageWithRetry` (`src/App.tsx` lines 121-189), one
constructor case per classification branch.  The loop is modelled by
structural recursion on `fuel = maxAttempts - attempts`; `fuel` and
`attempts` move in lockstep from `(maxAttempts, 0)`, so `fuel = 0` is
exactly the loop exit `attempts = maxAttempts` (line 191).  `oracle n` is
the result of the `n`-th remote `generateSceneImage` call.  The scene
argument is the driver's own record, on which each issued patch is also
applied (in the source, via `updateScene` keyed by the driver's id). -/
def driverGo (oracle : Nat → CallResult) : Nat → Nat → Scene → Nat → DriverOutcome
  | 0, _, s, calls =>
    { scene := applyPatch s pMaxRetries
      trace := [pMaxRetries]
      calls := calls
      event := .retriesExhausted
      authSignal := false }
  | fuel + 1, attempts, s, calls =>
    let p0 := pStart attempts
    let s0 := applyPatch s p0
    match oracle calls with
    | .ok url =>
      { scene := applyPatch s0 (pSuccess url)
        trace := [p0, pSuccess url]
        calls := calls + 1
        event := .success
        authSignal := false }
    | .err msg =>
      match classify msg with
      | .dailyQuotaExceeded =>
        { scene := applyPatch s0 pDaily
          trace := [p0, pDaily]
          calls := calls + 1
          event := .dailyQuota
          authSignal := false }
      | .rateLimited =>
        let ticks := (waitTicks (rateLimitWaitMs msg)).map (fun r => pTick (rateLimitTickMsg r))
        let s1 := ticks.foldl applyPatch s0
        let rest := driverGo oracle fuel (attempts + 1) s1 (calls + 1)
        { rest with trace := p0 :: (ticks ++ rest.trace) }
      | .serviceOverloaded =>
        let ticks := (waitTicks (some (5000 * (attempts + 1)))).map
          (fun r => pTick (overloadTickMsg r))
        let s1 := ticks.foldl applyPatch s0
        let rest := driverGo oracle fuel (attempts + 1) s1 (calls + 1)
        { rest with trace := p0 :: (ticks ++ rest.trace) }
      | .authDenied =>
        { scene := applyPatch s0 pAuth
          trace := [p0, pAuth]
          calls := calls + 1
          event := .authDenied
          authSignal := true }
      | .unknown =>
        { scene := applyPatch s0 pFailed
          trace := [p0, pFailed]
          calls := calls + 1
          event := .unknownError
          authSignal := false }

/-- `generateSingleImageWithRetry` (`src/App.tsx` lines 117-192), as a
function of the remote-call oracle and the driver's own scene record. -/
def generateSingleImageWithRetry (oracle : Nat → CallResult) (s : Scene) : DriverOutcome :=
  driverGo oracle maxAttempts 0 s 0

/-- JavaScript truthiness of an optional string (`undefined` and `""` are
falsy). -/
def strTruthy : Option String → Bool
  | none => false
  | some s => !(s = "")

/-- The selection predicate of `handleRegenerateFailed` (`src/App.tsx` line
241): `s.error || (s.imageUrl && s.imageUrl.includes('text=Generation+Failed'))`. -/
def isFailedScene (s : Scene) : Bool :=
  strTruthy s.error ||
    (strTruthy s.imageUrl && strContains (s.imageUrl.getD "") "text=Generation+Failed")

/-- `failedScenes` as computed by `handleRegenerateFailed` before any reset. -/
def regenSelect (scenes : List Scene) : List Scene :=
  scenes.filter isFailedScene

/-- The reset payload `{ error: undefined, statusMessage: "Queued..." }`
(`src/App.tsx` line 243). -/
def queuedPatch : ScenePatch :=
  { error := some none
    statusMessage := some (some "Queued...") }

/-- The store after `handleRegenerateFailed`'s
`failedScenes.forEach(s => updateScene(s.id, { error: undefined, statusMessage: "Queued..." }))`,
applied before the batch is scheduled. -/
def regenReset (scenes : List Scene) : List Scene :=
  (regenSelect scenes).foldl (fun st s => updateScene st s.id queuedPatch) scenes

/-- `CONCURRENCY_LIMIT` of `runConcurrentGeneration` (`src/App.tsx` line 198). -/
def CONCURRENCY_LIMIT : Nat := 3

/-- The full sequence of `updateScene` payloads a driver issues for scene
`sc`; `oracle j n` is the result of the `n`-th remote call made on behalf of
the job with id `j`.  The trace depends only on the oracle and on `sc.id`
(the driver never reads its scene record, it only writes it). -/
def jobTrace (oracle : Nat → Nat → CallResult) (sc : Scene) : List ScenePatch :=
  (generateSingleImageWithRetry (oracle sc.id) sc).trace

/-- Interleaving state of `runConcurrentGeneration` (`src/App.tsx` lines
194-229): the shared FIFO `queue`, one slot per launched worker loop holding
the id of the job it currently owns together with the `updateScene` payloads
that job's driver has not yet issued (`none` once the worker has exited), and
the shared `scenes` store. -/
structure SchedState where
  queue : List Scene
  workers : List (Option (Nat × List ScenePatch))
  store : List Scene
deriving DecidableEq

/-- Number of iterations performed by the launch loop
`for (let i = 0; i < Math.min(CONCURRENCY_LIMIT, queue.length); i++)`
(`src/App.tsx` lines 222-224), with `len` the current queue length.  The
loop test is re-evaluated on every iteration, and each iteration's
`processNext()` synchronously runs `queue.shift()` (line 204) before its
first `await`, so `len` shrinks by one per started worker.  The loop index
`i` stays below `CONCURRENCY_LIMIT`, so `CONCURRENCY_LIMIT` is enough fuel:
`fuel = 0` corresponds to `i = CONCURRENCY_LIMIT`, where the test
`i < min(CONCURRENCY_LIMIT, len)` is false. -/
def launchLoopGo : Nat → Nat → Nat → Nat
  | 0, _, _ => 0
  | fuel + 1, i, len =>
    if i < min CONCURRENCY_LIMIT len then launchLoopGo fuel (i + 1) (len - 1) + 1
    else 0

/-- Workers started by the launch loop for an `n`-scene batch. -/
def launchCount (n : Nat) : Nat :=
  launchLoopGo CONCURRENCY_LIMIT 0 n

/-- The launch loop starts `min(CONCURRENCY_LIMIT, ⌈n/2⌉)` workers: the
re-evaluated bound `Math.min(3, queue.length)` shrinks as the queue does. -/
theorem launchCount_closed_form (n : Nat) :
    launchCount n = min CONCURRENCY_LIMIT ((n + 1) / 2) := by
  have e3 : launchCount n
      = if 0 < min CONCURRENCY_LIMIT n then launchLoopGo 2 1 (n - 1) + 1
        else 0 := rfl
  have e2 : launchLoopGo 2 1 (n - 1)
      = if 1 < min CONCURRENCY_LIMIT (n - 1) then launchLoopGo 1 2 (n - 2) + 1
        else 0 := rfl
  have e1 : launchLoopGo 1 2 (n - 2)
      = if 2 < min CONCURRENCY_LIMIT (n - 2) then launchLoopGo 0 3 (n - 3) + 1
        else 0 := rfl
  have e0 : launchLoopGo 0 3 (n - 3) = 0 := rfl
  rw [e3, e2, e1, e0]
  simp only [CONCURRENCY_LIMIT]
  split_ifs <;> omega

theorem launchCount_le (n : Nat) : launchCount n ≤ n := by
  rw [launchCount_closed_form]
  simp only [CONCURRENCY_LIMIT]
  omega

theorem launchCount_le_min (n : Nat) :
    launchCount n ≤ min CONCURRENCY_LIMIT n := by
  rw [launchCount_closed_form]
  simp only [CONCURRENCY_LIMIT]
  omega

/-- State after the synchronous launch loop (`src/App.tsx` lines 221-224):
`launchCount batch.length` worker loops are started — the loop bound
`Math.min(CONCURRENCY_LIMIT, queue.length)` is re-evaluated while each
started `processNext()` has already shifted one scene off the queue before
its first suspension point, so fewer than `min(CONCURRENCY_LIMIT, N)`
workers start when `1 < N < 5`.  Each started worker has popped one scene
off the front of the queue. -/
def initSched (oracle : Nat → Nat → CallResult) (batch store : List Scene) : SchedState :=
  { queue := batch.drop (launchCount batch.length)
    workers := (batch.take (launchCount batch.length)).map
      (fun sc => some (sc.id, jobTrace oracle sc))
    store := store }

/-- One atomic step of the single-threaded event loop, at the granularity of
individual `updateScene` calls.  This over-approximates the schedules of the
real event loop: any pending update of any in-flight driver may fire next,
and a worker whose driver has finished may at any point either pop the next
queued scene (`processNext` recursion, lines 215-217) or exit (line 203). -/
inductive SchedStep (oracle : Nat → Nat → CallResult) : SchedState → SchedState → Prop
  | update (st : SchedState) (k j : Nat) (p : ScenePatch) (rem : List ScenePatch) :
      st.workers[k]? = some (some (j, p :: rem)) →
      SchedStep oracle st
        { st with workers := st.workers.set k (some (j, rem))
                  store := updateScene st.store j p }
  | next (st : SchedState) (k j : Nat) (sc : Scene) (q' : List Scene) :
      st.workers[k]? = some (some (j, [])) →
      st.queue = sc :: q' →
      SchedStep oracle st
        { st with workers := st.workers.set k (some (sc.id, jobTrace oracle sc))
                  queue := q' }
  | exit (st : SchedState) (k j : Nat) :
      st.workers[k]? = some (some (j, [])) →
      st.queue = [] →
      SchedStep oracle st
        { st with workers := st.workers.set k none }

/-- Executions of `runConcurrentGeneration` on a batch: all interleavings of
driver updates and worker hand-offs from the launch state. -/
def SchedReaches (oracle : Nat → Nat → CallResult) (batch store : List Scene)
    (st : SchedState) : Prop :=
  Relation.ReflTransGen (SchedStep oracle) (initSched oracle batch store) st

/-- The batch call has resolved: every queued job was taken and every worker
loop has exited (`await Promise.all(workers)`, line 227). -/
def SchedDone (st : SchedState) : Prop :=
  st.queue = [] ∧ ∀ w ∈ st.workers, w = none

/-! ## Substring-matching lemmas -/

theorem listContains_cons (c : Char) (t pat : List Char) :
    listContains (c :: t) pat = (pat.isPrefixOf (c :: t) || listContains t pat) := by
  rw [listContains]

theorem listContains_of_isPrefixOf {l pat : List Char} (h : pat.isPrefixOf l = true) :
    listContains l pat = true := by
  cases l with
  | nil => rw [listContains]; simp [h]
  | cons c t => rw [listContains_cons, h, Bool.true_or]

theorem listContains_embed (u pat v : List Char) :
    listContains (u ++ (pat ++ v)) pat = true := by
  induction u with
  | nil =>
    exact listContains_of_isPrefixOf
      (List.isPrefixOf_iff_prefix.mpr (List.prefix_append pat v))
  | cons c u ih =>
    rw [List.cons_append, listContains_cons, ih, Bool.or_true]

theorem strContains_embed (u pat v : String) :
    strContains (u ++ pat ++ v) pat = true := by
  unfold strContains
  rw [String.data_append, String.data_append, List.append_assoc]
  exact listContains_embed u.data pat.data v.data

/-! ## C9 and C4: the error classification -/

/-- C9 (implicit): failure classification is decided by a fixed precedence of
substring checks — daily-quota marker before `"429"`/`"quota"` before
`"503"`/`"overloaded"`/`"UNAVAILABLE"` before `"403"`/`"PERMISSION_DENIED"`
before `Unknown` — so a message matching the triggers of several kinds is
classified as the earliest kind in this order. -/
theorem c9_classification_precedence (m : String) :
    (strContains m "generate_requests_per_model_per_day" = true →
      classify m = .dailyQuotaExceeded)
  ∧ (strContains m "generate_requests_per_model_per_day" = false →
      (strContains m "429" = true ∨ strContains m "quota" = true) →
      classify m = .rateLimited)
  ∧ (strContains m "generate_requests_per_model_per_day" = false →
      strContains m "429" = false → strContains m "quota" = false →
      (strContains m "503" = true ∨ strContains m "overloaded" = true ∨
        strContains m "UNAVAILABLE" = true) →
      classify m = .serviceOverloaded)
  ∧ (strContains m "generate_requests_per_model_per_day" = false →
      strContains m "429" = false → strContains m "quota" = false →
      strContains m "503" = false → strContains m "overloaded" = false →
      strContains m "UNAVAILABLE" = false →
      (strContains m "403" = true ∨ strContains m "PERMISSION_DENIED" = true) →
      classify m = .authDenied)
  ∧ (strContains m "generate_requests_per_model_per_day" = false →
      strContains m "429" = false → strContains m "quota" = false →
      strContains m "503" = false → strContains m "overloaded" = false →
      strContains m "UNAVAILABLE" = false →
      strContains m "403" = false → strContains m "PERMISSION_DENIED" = false →
      classify m = .unknown) := by
  refine ⟨?_, ?_, ?_, ?_, ?_⟩ <;> intros <;> unfold classify <;>
    split_ifs <;> simp_all

/-- Witness for C9: a message carrying both the daily-quota marker and
`"429"` is classified `DailyQuotaExceeded`, and a message carrying both
`"429"` and `"503"` is classified `RateLimited`. -/
theorem c9_classification_precedence_witness :
    classify "generate_requests_per_model_per_day and 429" = .dailyQuotaExceeded
  ∧ classify "got 429 after 503" = .rateLimited :=
  ⟨(c9_classification_precedence _).1 (by decide),
   (c9_classification_precedence _).2.1 (by decide) (Or.inl (by decide))⟩

/-- Counterexample for C4: classification is case-sensitive.  The message
`"quota"` is classified `RateLimited`, but its upper-cased form `"QUOTA"`
matches no trigger and is classified `Unknown`. -/
theorem c4_counterexample :
    "quota".data.map Char.toUpper = "QUOTA".data
  ∧ classify "quota" = .rateLimited
  ∧ classify "QUOTA" = .unknown
  ∧ classify "quota" ≠ classify "QUOTA" := by
  refine ⟨by decide, by decide, by decide, by decide⟩

/-- C4 as amended: a trigger signal is recognized wherever it is embedded in
the message (substring semantics) — any message embedding a trigger is
classified as a non-`Unknown` kind, respecting the precedence order — but
classification is case-sensitive, not case-independent: `"quota"` is
`RateLimited` while `"QUOTA"` is `Unknown`. -/
theorem c4_amended_substring_semantics_case_sensitive (u v : String) :
    classify (u ++ "generate_requests_per_model_per_day" ++ v) = .dailyQuotaExceeded
  ∧ (classify (u ++ "429" ++ v) = .dailyQuotaExceeded ∨
      classify (u ++ "429" ++ v) = .rateLimited)
  ∧ (classify (u ++ "quota" ++ v) = .dailyQuotaExceeded ∨
      classify (u ++ "quota" ++ v) = .rateLimited)
  ∧ (classify (u ++ "503" ++ v) = .dailyQuotaExceeded ∨
      classify (u ++ "503" ++ v) = .rateLimited ∨
      classify (u ++ "503" ++ v) = .serviceOverloaded)
  ∧ (classify (u ++ "overloaded" ++ v) = .dailyQuotaExceeded ∨
      classify (u ++ "overloaded" ++ v) = .rateLimited ∨
      classify (u ++ "overloaded" ++ v) = .serviceOverloaded)
  ∧ (classify (u ++ "UNAVAILABLE" ++ v) = .dailyQuotaExceeded ∨
      classify (u ++ "UNAVAILABLE" ++ v) = .rateLimited ∨
      classify (u ++ "UNAVAILABLE" ++ v) = .serviceOverloaded)
  ∧ (classify (u ++ "403" ++ v) = .dailyQuotaExceeded ∨
      classify (u ++ "403" ++ v) = .rateLimited ∨
      classify (u ++ "403" ++ v) = .serviceOverloaded ∨
      classify (u ++ "403" ++ v) = .authDenied)
  ∧ (classify (u ++ "PERMISSION_DENIED" ++ v) = .dailyQuotaExceeded ∨
      classify (u ++ "PERMISSION_DENIED" ++ v) = .rateLimited ∨
      classify (u ++ "PERMISSION_DENIED" ++ v) = .serviceOverloaded ∨
      classify (u ++ "PERMISSION_DENIED" ++ v) = .authDenied)
  ∧ classify "quota" = .rateLimited ∧ classify "QUOTA" = .unknown := by
  refine ⟨?_, ?_, ?_, ?_, ?_, ?_, ?_, ?_, by decide, by decide⟩
  · have hc := strContains_embed u "generate_requests_per_model_per_day" v
    simp [classify, hc]
  · have hc := strContains_embed u "429" v
    unfold classify; split_ifs <;> simp_all
  · have hc := strContains_embed u "quota" v
    unfold classify; split_ifs <;> simp_all
  · have hc := strContains_embed u "503" v
    unfold classify; split_ifs <;> simp_all
  · have hc := strContains_embed u "overloaded" v
    unfold classify; split_ifs <;> simp_all
  · have hc := strContains_embed u "UNAVAILABLE" v
    unfold classify; split_ifs <;> simp_all
  · have hc := strContains_embed u "403" v
    unfold classify; split_ifs <;> simp_all
  · have hc := strContains_embed u "PERMISSION_DENIED" v
    unfold classify; split_ifs <;> simp_all

/-! ## C7: rate-limit wait-time computation -/

theorem takeWhile_append_of_not {p : Char → Bool} {ds : List Char} {x : Char}
    (rest : List Char) (h : ∀ c ∈ ds, p c = true) (hx : p x = false) :
    (ds ++ x :: rest).takeWhile p = ds := by
  induction ds with
  | nil => simp [List.takeWhile_cons, hx]
  | cons c t ih =>
    have hc : p c = true := h c (List.mem_cons_self c t)
    simp only [List.cons_append, List.takeWhile_cons, hc, if_true]
    rw [ih (fun d hd => h d (List.mem_cons_of_mem c hd))]

/-- Counterexample for C7: the message `"retry in .s"` carries no parseable
delay, yet the computed wait is not the claimed 30-second default: the regex
`/retry in ([\d\.]+)s/` does match with capture `"."`, `parseFloat(".")` is
`NaN` (modelled `none`), and the resulting `NaN` wait bound makes the wait
loop exit immediately. -/
theorem c7_counterexample :
    findRetryCapture "retry in .s" = some ['.']
  ∧ parseFloatCeil ['.'] = none
  ∧ rateLimitWaitMs "retry in .s" = none
  ∧ rateLimitWaitMs "retry in .s" ≠ some 30000 := by
  refine ⟨by decide, by decide, by decide, by decide⟩

/-- C7 as amended: for a RateLimited failure the computed wait is
`ceil(s) + 1` seconds (`(n + 1) * 1000` ms, where `n` is the exact ceiling
of the parsed capture) whenever the message matches
`/retry in ([\d\.]+)s/` with a parseable capture, and 30 seconds whenever
the pattern does not occur at all; but when the pattern occurs with an
unparseable capture (e.g. `"retry in .s"`), the computed wait is `NaN`
(modelled `none`) rather than 30 seconds.  For an all-digit capture the
ceiling is its decimal value, and appending a non-zero decimal fraction
raises it by exactly one. -/
theorem c7_amended_wait_time (m : String) (cap : List Char) (n : Nat) :
    (findRetryCapture m = none → rateLimitWaitMs m = some 30000)
  ∧ (findRetryCapture m = some cap → parseFloatCeil cap = some n →
      rateLimitWaitMs m = some (n * 1000 + 1000))
  ∧ (findRetryCapture m = some cap → parseFloatCeil cap = none →
      rateLimitWaitMs m = none)
  ∧ (∀ ds : List Char, ds ≠ [] → (∀ c ∈ ds, c.isDigit = true) →
      parseFloatCeil ds = some (digitsToNat ds))
  ∧ (∀ ds fs : List Char, ds ≠ [] → (∀ c ∈ ds, c.isDigit = true) →
      (∀ c ∈ fs, c.isDigit = true) → (∃ d ∈ fs, d ≠ '0') →
      parseFloatCeil (ds ++ '.' :: fs) = some (digitsToNat ds + 1))
  ∧ rateLimitWaitMs "Please retry in 12.3s now" = some 14000 := by
  refine ⟨?_, ?_, ?_, ?_, ?_, by decide⟩
  · intro h; unfold rateLimitWaitMs; rw [h]
  · intro h1 h2; unfold rateLimitWaitMs; rw [h1]; simp [h2]
  · intro h1 h2; unfold rateLimitWaitMs; rw [h1]; simp [h2]
  · intro ds hne hdig
    match ds, hne with
    | c :: r, _ =>
      have hc : c.isDigit = true := hdig c (List.mem_cons_self c r)
      unfold parseFloatCeil
      simp only [hc, if_true]
      rw [List.takeWhile_eq_self_iff.mpr hdig]
      simp
  · intro ds fs hne hdig hfdig hnz
    match ds, hne with
    | c :: r, _ =>
      have hc : c.isDigit = true := hdig c (List.mem_cons_self c r)
      have hdot : ('.' : Char).isDigit = false := by decide
      have ht : List.takeWhile Char.isDigit (c :: (r ++ '.' :: fs)) = c :: r := by
        simpa using takeWhile_append_of_not fs hdig hdot
      have hdrop : List.drop (c :: r).length (c :: (r ++ '.' :: fs)) = '.' :: fs :=
        List.drop_left (c :: r) ('.' :: fs)
      have hany : fs.any (fun d => d ≠ '0') = true := by
        obtain ⟨d, hd, hdne⟩ := hnz
        simp only [List.any_eq_true]
        exact ⟨d, hd, by simpa using hdne⟩
      unfold parseFloatCeil
      simp only [List.cons_append, hc, if_true]
      simp only [ht, hdrop]
      simp [List.takeWhile_eq_self_iff.mpr hfdig, hany]
      exact hnz

/-- Witness for C7 (amended): the spec's own example — a message containing
`"retry in 12.3s"` yields a `(13 + 1) * 1000 = 14000` ms wait. -/
theorem c7_amended_wait_time_witness :
    findRetryCapture "Please retry in 12.3s now" = some ['1', '2', '.', '3']
  ∧ parseFloatCeil ['1', '2', '.', '3'] = some 13
  ∧ rateLimitWaitMs "Please retry in 12.3s now" = some 14000 :=
  ⟨by decide, by decide,
   (c7_amended_wait_time "Please retry in 12.3s now" ['1', '2', '.', '3'] 13).2.1
     (by decide) (by decide)⟩

/-! ## C10: frame property of `updateScene` -/

/-- A concrete scene record for witnesses and counterexamples. -/
def sampleScene : Scene :=
  { id := 0
    narration := "n"
    visualDescription := "v"
    imagePrompt := "p"
    textOverlay := none
    imageUrl := none
    isLoadingImage := false
    isLoadingTextOverlay := none
    isRefining := none
    error := none
    statusMessage := none }

/-- A second concrete scene, already in a failed state. -/
def sampleScene2 : Scene :=
  { sampleScene with id := 1, error := some "Failed" }

/-- An update object that names the `id` field, as `Partial<Scene>` allows. -/
def idPatch : ScenePatch := { id := some 99 }

/-- Counterexample for C10: `updateScene` does not keep the `id` field of
the updated scene when the update object itself names `id` — the spread
`{ ...s, ...updates }` overrides it.  Updating scene 0 with `{ id: 99 }`
changes its id to 99. -/
theorem c10_counterexample :
    sampleScene.id = 0
  ∧ (updateScene [sampleScene] 0 idPatch).map Scene.id = [99] :=
  ⟨by decide, by decide⟩

/-- C10 as amended: for every call `updateScene(id, updates)`, every scene
whose id differs from the given id is left completely unchanged at its
position, the scene whose id matches becomes `{ ...s, ...updates }` at its
position, every field not named in the update — including `id` whenever the
update does not name it — is unchanged, and the length (hence order) of the
scene list is preserved.  An update that names `id` does change it. -/
theorem c10_amended_update_scene_frame (scenes : List Scene) (idv : Nat) (p : ScenePatch) :
    ((updateScene scenes idv p).length = scenes.length)
  ∧ (∀ (i : Nat) (s : Scene), scenes[i]? = some s → s.id ≠ idv →
      (updateScene scenes idv p)[i]? = some s)
  ∧ (∀ (i : Nat) (s : Scene), scenes[i]? = some s → s.id = idv →
      (updateScene scenes idv p)[i]? = some (applyPatch s p))
  ∧ (∀ s, p.id = none → (applyPatch s p).id = s.id)
  ∧ (∀ s, p.narration = none → (applyPatch s p).narration = s.narration)
  ∧ (∀ s, p.visualDescription = none →
      (applyPatch s p).visualDescription = s.visualDescription)
  ∧ (∀ s, p.imagePrompt = none → (applyPatch s p).imagePrompt = s.imagePrompt)
  ∧ (∀ s, p.textOverlay = none → (applyPatch s p).textOverlay = s.textOverlay)
  ∧ (∀ s, p.imageUrl = none → (applyPatch s p).imageUrl = s.imageUrl)
  ∧ (∀ s, p.isLoadingImage = none →
      (applyPatch s p).isLoadingImage = s.isLoadingImage)
  ∧ (∀ s, p.isLoadingTextOverlay = none →
      (applyPatch s p).isLoadingTextOverlay = s.isLoadingTextOverlay)
  ∧ (∀ s, p.isRefining = none → (applyPatch s p).isRefining = s.isRefining)
  ∧ (∀ s, p.error = none → (applyPatch s p).error = s.error)
  ∧ (∀ s, p.statusMessage = none →
      (applyPatch s p).statusMessage = s.statusMessage) := by
  refine ⟨by simp [updateScene], ?_, ?_, ?_, ?_, ?_, ?_, ?_, ?_, ?_, ?_, ?_, ?_, ?_⟩
  · intro i s hs hne
    simp [updateScene, List.getElem?_map, hs, hne]
  · intro i s hs he
    simp [updateScene, List.getElem?_map, hs, he]
  all_goals intro s h
  all_goals simp [applyPatch, h]

/-- Witness for C10 (amended): in a two-scene store, updating scene 0 leaves
scene 1 untouched at its position, and the reset patch (which does not name
`id`) keeps the updated scene's id. -/
theorem c10_amended_update_scene_frame_witness :
    ([sampleScene, sampleScene2] : List Scene)[1]? = some sampleScene2
  ∧ sampleScene2.id ≠ 0
  ∧ (updateScene [sampleScene, sampleScene2] 0 queuedPatch)[1]? = some sampleScene2
  ∧ (applyPatch sampleScene queuedPatch).id = sampleScene.id :=
  ⟨by decide, by decide,
   (c10_amended_update_scene_frame [sampleScene, sampleScene2] 0 queuedPatch).2.1
     1 sampleScene2 (by decide) (by decide),
   (c10_amended_update_scene_frame [sampleScene, sampleScene2] 0
     queuedPatch).2.2.2.1 sampleScene (by decide)⟩

/-! ## C5: `handleRegenerateFailed` selection and reset -/

/-- A scene with no error but a sentinel "generation failed" image url. -/
def sentinelScene : Scene :=
  { sampleScene with
    id := 7
    imageUrl := some "https://placehold.co/800x450?text=Generation+Failed" }

/-- Counterexample for C5: `handleRegenerateFailed` also selects jobs with no
prior `error`.  A scene whose `error` is unset but whose `imageUrl` contains
`'text=Generation+Failed'` is selected by the filter at `src/App.tsx` line
241. -/
theorem c5_counterexample :
    sentinelScene.error = none
  ∧ regenSelect [sentinelScene] = [sentinelScene] :=
  ⟨by decide, by decide⟩

theorem regen_fold_preserve (L st : List Scene) (j : Nat)
    (h : ∀ r ∈ st, r.id = j → r.error = none ∧ r.statusMessage = some "Queued...") :
    ∀ r ∈ L.foldl (fun acc s => updateScene acc s.id queuedPatch) st, r.id = j →
      r.error = none ∧ r.statusMessage = some "Queued..." := by
  induction L generalizing st with
  | nil => exact h
  | cons a L ih =>
    refine ih (updateScene st a.id queuedPatch) ?_
    intro r hr hid
    obtain ⟨r0, hr0, rfl⟩ := List.mem_map.mp hr
    by_cases hc : r0.id = a.id
    · simp only [hc, if_true] at hid ⊢
      exact ⟨rfl, rfl⟩
    · simp only [if_neg hc] at hid ⊢
      exact h r0 hr0 hid

theorem regen_fold_sets (L st : List Scene) (j : Nat) (hj : j ∈ L.map Scene.id) :
    ∀ r ∈ L.foldl (fun acc s => updateScene acc s.id queuedPatch) st, r.id = j →
      r.error = none ∧ r.statusMessage = some "Queued..." := by
  induction L generalizing st with
  | nil => simp at hj
  | cons a L ih =>
    rcases (by simpa using hj : j = a.id ∨ ∃ b ∈ L, b.id = j) with hja | ⟨b, hb, hbj⟩
    · refine regen_fold_preserve L (updateScene st a.id queuedPatch) j ?_
      intro r hr hid
      obtain ⟨r0, hr0, rfl⟩ := List.mem_map.mp hr
      by_cases hc : r0.id = a.id
      · simp only [hc, if_true] at hid ⊢
        exact ⟨rfl, rfl⟩
      · simp only [if_neg hc] at hid ⊢
        exact absurd (hid.trans hja) hc
    · exact ih (updateScene st a.id queuedPatch)
        (List.mem_map.mpr ⟨b, hb, hbj⟩)

/-- C5 as amended: `handleRegenerateFailed` selects exactly the jobs whose
`error` is (truthily) set **or** whose `imageUrl` contains the sentinel
substring `'text=Generation+Failed'`; and before scheduling the batch it
clears `error` and sets the `"Queued..."` status message on every store
record whose id is a selected id. -/
theorem c5_amended_regenerate_failed (scenes : List Scene) :
    (∀ s : Scene, s ∈ regenSelect scenes ↔
      s ∈ scenes ∧ (strTruthy s.error = true ∨
        (strTruthy s.imageUrl = true ∧
          strContains (s.imageUrl.getD "") "text=Generation+Failed" = true)))
  ∧ (∀ s' ∈ regenReset scenes, s'.id ∈ (regenSelect scenes).map Scene.id →
      s'.error = none ∧ s'.statusMessage = some "Queued...") := by
  constructor
  · intro s
    simp [regenSelect, List.mem_filter, isFailedScene]
  · intro s' hs' hid
    exact regen_fold_sets (regenSelect scenes) scenes s'.id hid s' hs' rfl

/-- Witness for C5 (amended): in a three-scene store, the scene with a set
`error` is selected, and after the reset phase the record carrying its id has
`error` cleared and status `"Queued..."`. -/
theorem c5_amended_regenerate_failed_witness :
    sampleScene2 ∈ regenSelect [sampleScene, sampleScene2, sentinelScene]
  ∧ (applyPatch sampleScene2 queuedPatch).error = none
  ∧ (applyPatch sampleScene2 queuedPatch).statusMessage = some "Queued..." := by
  refine ⟨((c5_amended_regenerate_failed _).1 sampleScene2).mpr
    ⟨by decide, Or.inl (by decide)⟩, ?_⟩
  have h := (c5_amended_regenerate_failed
    [sampleScene, sampleScene2, sentinelScene]).2
    (applyPatch sampleScene2 queuedPatch) (by decide) (by decide)
  exact h

/-! ## Driver lemmas -/

theorem driverGo_calls_le (oracle : Nat → CallResult) :
    ∀ (fuel attempts : Nat) (s : Scene) (calls : Nat),
      (driverGo oracle fuel attempts s calls).calls ≤ calls + fuel := by
  intro fuel
  induction fuel with
  | zero =>
    intro attempts s calls
    simp [driverGo]
  | succ n ih =>
    intro attempts s calls
    cases horacle : oracle calls with
    | ok url => simp [driverGo, horacle]
    | err msg =>
      cases hc : classify msg <;> simp [driverGo, horacle, hc] <;>
        exact le_trans (ih _ _ _) (by omega)

/-- A terminating `updateScene` payload: it turns the running flag off and
sets the result or the error field. -/
def terminalPatch (p : ScenePatch) : Prop :=
  p.isLoadingImage = some false ∧
    ((∃ e, p.error = some (some e)) ∨ (∃ u, p.imageUrl = some (some u)))

theorem driverGo_trace_terminal (oracle : Nat → CallResult) :
    ∀ (fuel attempts : Nat) (s : Scene) (calls : Nat),
      ∃ p, (driverGo oracle fuel attempts s calls).trace.getLast? = some p
        ∧ terminalPatch p := by
  intro fuel
  induction fuel with
  | zero =>
    intro attempts s calls
    exact ⟨pMaxRetries, by simp [driverGo], rfl, Or.inl ⟨_, rfl⟩⟩
  | succ n ih =>
    intro attempts s calls
    cases horacle : oracle calls with
    | ok url =>
      exact ⟨pSuccess url, by simp [driverGo, horacle], rfl, Or.inr ⟨_, rfl⟩⟩
    | err msg =>
      cases hc : classify msg
      case dailyQuotaExceeded =>
        exact ⟨pDaily, by simp [driverGo, horacle, hc], rfl, Or.inl ⟨_, rfl⟩⟩
      case authDenied =>
        exact ⟨pAuth, by simp [driverGo, horacle, hc], rfl, Or.inl ⟨_, rfl⟩⟩
      case unknown =>
        exact ⟨pFailed, by simp [driverGo, horacle, hc], rfl, Or.inl ⟨_, rfl⟩⟩
      case rateLimited =>
        obtain ⟨p, hp, hterm⟩ := ih (attempts + 1)
          (((waitTicks (rateLimitWaitMs msg)).map
              (fun r => pTick (rateLimitTickMsg r))).foldl applyPatch
            (applyPatch s (pStart attempts))) (calls + 1)
        refine ⟨p, ?_, hterm⟩
        have hne : (driverGo oracle n (attempts + 1)
            (((waitTicks (rateLimitWaitMs msg)).map
                (fun r => pTick (rateLimitTickMsg r))).foldl applyPatch
              (applyPatch s (pStart attempts))) (calls + 1)).trace ≠ [] := by
          intro hnil
          rw [hnil] at hp
          simp at hp
        simp only [driverGo, horacle, hc]
        rw [show ∀ (a : ScenePatch) (l₁ l₂ : List ScenePatch),
              a :: (l₁ ++ l₂) = (a :: l₁) ++ l₂ by intro a l₁ l₂; rfl]
        rw [List.getLast?_append_of_ne_nil _ hne]
        exact hp
      case serviceOverloaded =>
        obtain ⟨p, hp, hterm⟩ := ih (attempts + 1)
          (((waitTicks (some (5000 * (attempts + 1)))).map
              (fun r => pTick (overloadTickMsg r))).foldl applyPatch
            (applyPatch s (pStart attempts))) (calls + 1)
        refine ⟨p, ?_, hterm⟩
        have hne : (driverGo oracle n (attempts + 1)
            (((waitTicks (some (5000 * (attempts + 1)))).map
                (fun r => pTick (overloadTickMsg r))).foldl applyPatch
              (applyPatch s (pStart attempts))) (calls + 1)).trace ≠ [] := by
          intro hnil
          rw [hnil] at hp
          simp at hp
        simp only [driverGo, horacle, hc]
        rw [show ∀ (a : ScenePatch) (l₁ l₂ : List ScenePatch),
              a :: (l₁ ++ l₂) = (a :: l₁) ++ l₂ by intro a l₁ l₂; rfl]
        rw [List.getLast?_append_of_ne_nil _ hne]
        exact hp

theorem driverGo_trace_id_none (oracle : Nat → CallResult) :
    ∀ (fuel attempts : Nat) (s : Scene) (calls : Nat) (p : ScenePatch),
      p ∈ (driverGo oracle fuel attempts s calls).trace → p.id = none := by
  intro fuel
  induction fuel with
  | zero =>
    intro attempts s calls p hp
    simp [driverGo] at hp
    subst hp
    rfl
  | succ n ih =>
    intro attempts s calls p hp
    cases horacle : oracle calls with
    | ok url =>
      simp [driverGo, horacle] at hp
      rcases hp with hp | hp <;> subst hp <;> rfl
    | err msg =>
      cases hc : classify msg <;> simp [driverGo, horacle, hc] at hp
      case dailyQuotaExceeded =>
        rcases hp with hp | hp <;> subst hp <;> rfl
      case authDenied =>
        rcases hp with hp | hp <;> subst hp <;> rfl
      case unknown =>
        rcases hp with hp | hp <;> subst hp <;> rfl
      case rateLimited =>
        rcases hp with hp | ⟨r, hr, hp⟩ | hp
        · subst hp; rfl
        · subst hp; rfl
        · exact ih _ _ _ p hp
      case serviceOverloaded =>
        rcases hp with hp | ⟨r, hr, hp⟩ | hp
        · subst hp; rfl
        · subst hp; rfl
        · exact ih _ _ _ p hp

theorem driverGo_status_of_event (oracle : Nat → CallResult) :
    ∀ (fuel attempts : Nat) (s : Scene) (calls : Nat),
      ((driverGo oracle fuel attempts s calls).event = .dailyQuota →
        (driverGo oracle fuel attempts s calls).scene.statusMessage
          = some "Daily Limit Reached")
    ∧ ((driverGo oracle fuel attempts s calls).event ≠ .dailyQuota →
        (driverGo oracle fuel attempts s calls).scene.statusMessage = none) := by
  intro fuel
  induction fuel with
  | zero =>
    intro attempts s calls
    constructor <;> intro h <;> simp [driverGo, applyPatch, pMaxRetries] at h ⊢
  | succ n ih =>
    intro attempts s calls
    cases horacle : oracle calls with
    | ok url =>
      constructor <;> intro h <;>
        simp [driverGo, horacle, applyPatch, pSuccess] at h ⊢
    | err msg =>
      cases hc : classify msg
      case dailyQuotaExceeded =>
        constructor <;> intro h <;>
          simp [driverGo, horacle, hc, applyPatch, pDaily] at h ⊢
      case authDenied =>
        constructor <;> intro h <;>
          simp [driverGo, horacle, hc, applyPatch, pAuth] at h ⊢
      case unknown =>
        constructor <;> intro h <;>
          simp [driverGo, horacle, hc, applyPatch, pFailed] at h ⊢
      case rateLimited =>
        have := ih (attempts + 1)
          (((waitTicks (rateLimitWaitMs msg)).map
              (fun r => pTick (rateLimitTickMsg r))).foldl applyPatch
            (applyPatch s (pStart attempts))) (calls + 1)
        constructor <;> intro h <;>
          simp only [driverGo, horacle, hc] at h ⊢ <;>
          [exact this.1 h; exact this.2 h]
      case serviceOverloaded =>
        have := ih (attempts + 1)
          (((waitTicks (some (5000 * (attempts + 1)))).map
              (fun r => pTick (overloadTickMsg r))).foldl applyPatch
            (applyPatch s (pStart attempts))) (calls + 1)
        constructor <;> intro h <;>
          simp only [driverGo, horacle, hc] at h ⊢ <;>
          [exact this.1 h; exact this.2 h]

theorem driverGo_retry_step (oracle : Nat → CallResult) (fuel attempts : Nat)
    (s : Scene) (calls : Nat) (msg : String) (ho : oracle calls = .err msg)
    (hc : classify msg = .rateLimited ∨ classify msg = .serviceOverloaded) :
    ∃ s' : Scene,
      (driverGo oracle (fuel + 1) attempts s calls).calls
        = (driverGo oracle fuel (attempts + 1) s' (calls + 1)).calls
    ∧ (driverGo oracle (fuel + 1) attempts s calls).event
        = (driverGo oracle fuel (attempts + 1) s' (calls + 1)).event
    ∧ (driverGo oracle (fuel + 1) attempts s calls).scene
        = (driverGo oracle fuel (attempts + 1) s' (calls + 1)).scene := by
  rcases hc with hc | hc
  · refine ⟨((waitTicks (rateLimitWaitMs msg)).map
        (fun r => pTick (rateLimitTickMsg r))).foldl applyPatch
        (applyPatch s (pStart attempts)), ?_, ?_, ?_⟩ <;>
      simp [driverGo, ho, hc]
  · refine ⟨((waitTicks (some (5000 * (attempts + 1)))).map
        (fun r => pTick (overloadTickMsg r))).foldl applyPatch
        (applyPatch s (pStart attempts)), ?_, ?_, ?_⟩ <;>
      simp [driverGo, ho, hc]

theorem driverGo_no_reinvoke_after_terminal (oracle : Nat → CallResult)
    (i : Nat) (m : String) (ho : oracle i = .err m)
    (hterm : classify m = .dailyQuotaExceeded ∨ classify m = .authDenied ∨
      classify m = .unknown) :
    ∀ (fuel attempts : Nat) (s : Scene) (calls : Nat), calls ≤ i →
      (driverGo oracle fuel attempts s calls).calls ≤ i + 1 := by
  intro fuel
  induction fuel with
  | zero =>
    intro attempts s calls hle
    simp [driverGo]
    omega
  | succ n ih =>
    intro attempts s calls hle
    by_cases hci : calls = i
    · subst hci
      rcases hterm with hc | hc | hc <;> simp [driverGo, ho, hc]
    · have hlt : calls < i := lt_of_le_of_ne hle hci
      cases horacle : oracle calls with
      | ok url =>
        simp [driverGo, horacle]
        omega
      | err msg2 =>
        cases hc2 : classify msg2 <;> simp [driverGo, horacle, hc2] <;>
          first
            | omega
            | exact ih _ _ _ (by omega)

/-! ## C3, C6, C8: single-job retry driver -/

/-- C3: the driver performs at most 5 remote calls; five retryable failures
in a row (e.g. `ServiceOverloaded` on all 5 attempts) end the job with
`error = "Max Retries Exceeded"` and the running flag off; `RateLimited` on
attempts 1-4 followed by success on attempt 5 ends the job with the result
set and no error. -/
theorem c3_retry_cap_and_outcomes (oracle : Nat → CallResult) (s : Scene)
    (url : String) :
    (generateSingleImageWithRetry oracle s).calls ≤ maxAttempts
  ∧ ((∀ i, i < maxAttempts → ∃ m, oracle i = .err m ∧
        (classify m = .rateLimited ∨ classify m = .serviceOverloaded)) →
      (generateSingleImageWithRetry oracle s).scene.error
          = some "Max Retries Exceeded"
      ∧ (generateSingleImageWithRetry oracle s).scene.isLoadingImage = false
      ∧ (generateSingleImageWithRetry oracle s).event = .retriesExhausted)
  ∧ ((∀ i, i < 4 → ∃ m, oracle i = .err m ∧ classify m = .rateLimited) →
      oracle 4 = .ok url →
      (generateSingleImageWithRetry oracle s).scene.imageUrl = some url
      ∧ (generateSingleImageWithRetry oracle s).scene.error = none
      ∧ (generateSingleImageWithRetry oracle s).scene.isLoadingImage = false) := by
  refine ⟨by simpa using driverGo_calls_le oracle maxAttempts 0 s 0, ?_, ?_⟩
  · intro h
    obtain ⟨m0, ho0, hc0⟩ := h 0 (by norm_num [maxAttempts])
    obtain ⟨m1, ho1, hc1⟩ := h 1 (by norm_num [maxAttempts])
    obtain ⟨m2, ho2, hc2⟩ := h 2 (by norm_num [maxAttempts])
    obtain ⟨m3, ho3, hc3⟩ := h 3 (by norm_num [maxAttempts])
    obtain ⟨m4, ho4, hc4⟩ := h 4 (by norm_num [maxAttempts])
    obtain ⟨s1, _, he1, hs1⟩ := driverGo_retry_step oracle 4 0 s 0 m0 ho0 hc0
    obtain ⟨s2, _, he2, hs2⟩ := driverGo_retry_step oracle 3 1 s1 1 m1 ho1 hc1
    obtain ⟨s3, _, he3, hs3⟩ := driverGo_retry_step oracle 2 2 s2 2 m2 ho2 hc2
    obtain ⟨s4, _, he4, hs4⟩ := driverGo_retry_step oracle 1 3 s3 3 m3 ho3 hc3
    obtain ⟨s5, _, he5, hs5⟩ := driverGo_retry_step oracle 0 4 s4 4 m4 ho4 hc4
    have escene : (driverGo oracle 5 0 s 0).scene = (driverGo oracle 0 5 s5 5).scene := by
      have e1 : (driverGo oracle 5 0 s 0).scene = (driverGo oracle 4 1 s1 1).scene := hs1
      have e2 : (driverGo oracle 4 1 s1 1).scene = (driverGo oracle 3 2 s2 2).scene := hs2
      have e3 : (driverGo oracle 3 2 s2 2).scene = (driverGo oracle 2 3 s3 3).scene := hs3
      have e4 : (driverGo oracle 2 3 s3 3).scene = (driverGo oracle 1 4 s4 4).scene := hs4
      have e5 : (driverGo oracle 1 4 s4 4).scene = (driverGo oracle 0 5 s5 5).scene := hs5
      exact e1.trans (e2.trans (e3.trans (e4.trans e5)))
    have eevent : (driverGo oracle 5 0 s 0).event = (driverGo oracle 0 5 s5 5).event := by
      have e1 : (driverGo oracle 5 0 s 0).event = (driverGo oracle 4 1 s1 1).event := he1
      have e2 : (driverGo oracle 4 1 s1 1).event = (driverGo oracle 3 2 s2 2).event := he2
      have e3 : (driverGo oracle 3 2 s2 2).event = (driverGo oracle 2 3 s3 3).event := he3
      have e4 : (driverGo oracle 2 3 s3 3).event = (driverGo oracle 1 4 s4 4).event := he4
      have e5 : (driverGo oracle 1 4 s4 4).event = (driverGo oracle 0 5 s5 5).event := he5
      exact e1.trans (e2.trans (e3.trans (e4.trans e5)))
    refine ⟨?_, ?_, ?_⟩
    · show (driverGo oracle 5 0 s 0).scene.error = some "Max Retries Exceeded"
      rw [escene]
      simp [driverGo, applyPatch, pMaxRetries]
    · show (driverGo oracle 5 0 s 0).scene.isLoadingImage = false
      rw [escene]
      simp [driverGo, applyPatch, pMaxRetries]
    · show (driverGo oracle 5 0 s 0).event = .retriesExhausted
      rw [eevent]
      simp [driverGo]
  · intro h hok
    obtain ⟨m0, ho0, hc0⟩ := h 0 (by norm_num)
    obtain ⟨m1, ho1, hc1⟩ := h 1 (by norm_num)
    obtain ⟨m2, ho2, hc2⟩ := h 2 (by norm_num)
    obtain ⟨m3, ho3, hc3⟩ := h 3 (by norm_num)
    obtain ⟨s1, _, he1, hs1⟩ := driverGo_retry_step oracle 4 0 s 0 m0 ho0 (Or.inl hc0)
    obtain ⟨s2, _, he2, hs2⟩ := driverGo_retry_step oracle 3 1 s1 1 m1 ho1 (Or.inl hc1)
    obtain ⟨s3, _, he3, hs3⟩ := driverGo_retry_step oracle 2 2 s2 2 m2 ho2 (Or.inl hc2)
    obtain ⟨s4, _, he4, hs4⟩ := driverGo_retry_step oracle 1 3 s3 3 m3 ho3 (Or.inl hc3)
    have escene : (driverGo oracle 5 0 s 0).scene = (driverGo oracle 1 4 s4 4).scene := by
      have e1 : (driverGo oracle 5 0 s 0).scene = (driverGo oracle 4 1 s1 1).scene := hs1
      have e2 : (driverGo oracle 4 1 s1 1).scene = (driverGo oracle 3 2 s2 2).scene := hs2
      have e3 : (driverGo oracle 3 2 s2 2).scene = (driverGo oracle 2 3 s3 3).scene := hs3
      have e4 : (driverGo oracle 2 3 s3 3).scene = (driverGo oracle 1 4 s4 4).scene := hs4
      exact e1.trans (e2.trans (e3.trans e4))
    refine ⟨?_, ?_, ?_⟩
    · show (driverGo oracle 5 0 s 0).scene.imageUrl = some url
      rw [escene]
      simp [driverGo, hok, applyPatch, pSuccess, pStart]
    · show (driverGo oracle 5 0 s 0).scene.error = none
      rw [escene]
      simp [driverGo, hok, applyPatch, pSuccess, pStart]
    · show (driverGo oracle 5 0 s 0).scene.isLoadingImage = false
      rw [escene]
      simp [driverGo, hok, applyPatch, pSuccess, pStart]

/-- An oracle that always reports a 503 overload. -/
def oracleOverloaded : Nat → CallResult := fun _ => .err "503 UNAVAILABLE"

/-- An oracle rate-limited on the first four calls, succeeding on the fifth. -/
def oracleRateThenOk : Nat → CallResult :=
  fun i => if i < 4 then .err "429" else .ok "img"

/-- An oracle that always succeeds. -/
def oracleOk : Nat → CallResult := fun _ => .ok "img"

/-- An oracle that always reports a permission failure. -/
def oracleAuth : Nat → CallResult := fun _ => .err "403"

/-- An oracle that always reports daily-quota exhaustion. -/
def oracleDaily : Nat → CallResult :=
  fun _ => .err "generate_requests_per_model_per_day exceeded"

/-- Witness for C3 at concrete oracles. -/
theorem c3_retry_cap_and_outcomes_witness :
    (generateSingleImageWithRetry oracleOverloaded sampleScene).calls ≤ maxAttempts
  ∧ (generateSingleImageWithRetry oracleOverloaded sampleScene).scene.error
      = some "Max Retries Exceeded"
  ∧ (generateSingleImageWithRetry oracleRateThenOk sampleScene).scene.imageUrl
      = some "img"
  ∧ (generateSingleImageWithRetry oracleRateThenOk sampleScene).scene.error
      = none :=
  ⟨(c3_retry_cap_and_outcomes oracleOverloaded sampleScene "img").1,
   ((c3_retry_cap_and_outcomes oracleOverloaded sampleScene "img").2.1
     (fun i _ => ⟨"503 UNAVAILABLE", rfl, Or.inr (by decide)⟩)).1,
   ((c3_retry_cap_and_outcomes oracleRateThenOk sampleScene "img").2.2
     (fun i hi => ⟨"429", by simp [oracleRateThenOk, hi], by decide⟩) rfl).1,
   ((c3_retry_cap_and_outcomes oracleRateThenOk sampleScene "img").2.2
     (fun i hi => ⟨"429", by simp [oracleRateThenOk, hi], by decide⟩) rfl).2.1⟩

/-- C8: a first-attempt failure classified `DailyQuotaExceeded`, `AuthDenied`
or `Unknown` means exactly one remote call; more generally the driver never
makes a call after a failure classified as one of these three kinds. -/
theorem c8_terminal_kinds_never_retried (oracle : Nat → CallResult) (s : Scene) :
    (∀ m, oracle 0 = .err m →
      (classify m = .dailyQuotaExceeded ∨ classify m = .authDenied ∨
        classify m = .unknown) →
      (generateSingleImageWithRetry oracle s).calls = 1)
  ∧ (∀ i m, oracle i = .err m →
      (classify m = .dailyQuotaExceeded ∨ classify m = .authDenied ∨
        classify m = .unknown) →
      (generateSingleImageWithRetry oracle s).calls ≤ i + 1) := by
  constructor
  · intro m h0 hterm
    show (driverGo oracle 5 0 s 0).calls = 1
    rcases hterm with hc | hc | hc <;> simp [driverGo, h0, hc]
  · intro i m hoi hterm
    show (driverGo oracle 5 0 s 0).calls ≤ i + 1
    exact driverGo_no_reinvoke_after_terminal oracle i m hoi hterm 5 0 s 0
      (Nat.zero_le i)

/-- Witness for C8: an auth failure on the first call stops after exactly one
remote call, and a daily-quota failure on the first call keeps the call count
at one. -/
theorem c8_terminal_kinds_never_retried_witness :
    (generateSingleImageWithRetry oracleAuth sampleScene).calls = 1
  ∧ (generateSingleImageWithRetry oracleDaily sampleScene).calls ≤ 1 :=
  ⟨(c8_terminal_kinds_never_retried oracleAuth sampleScene).1 "403" rfl
     (Or.inr (Or.inl (by decide))),
   (c8_terminal_kinds_never_retried oracleDaily sampleScene).2 0
     "generate_requests_per_model_per_day exceeded" rfl (Or.inl (by decide))⟩

/-- Counterexample for C6: on the `DailyQuotaExceeded` terminal failure the
driver does not clear `statusMessage` — it sets it to `"Daily Limit
Reached"` (`src/App.tsx` line 134). -/
theorem c6_counterexample :
    (generateSingleImageWithRetry oracleDaily sampleScene).event = .dailyQuota
  ∧ (generateSingleImageWithRetry oracleDaily sampleScene).scene.statusMessage
      = some "Daily Limit Reached"
  ∧ (generateSingleImageWithRetry oracleDaily sampleScene).scene.statusMessage
      ≠ none :=
  ⟨by decide, by decide, by decide⟩

/-- C6 as amended: `statusMessage` is cleared on success and on the terminal
failures `AuthDenied`, `Unknown` and retries-exhausted, but on
`DailyQuotaExceeded` it is set to `"Daily Limit Reached"` instead. -/
theorem c6_amended_status_cleared (oracle : Nat → CallResult) (s : Scene) :
    ((generateSingleImageWithRetry oracle s).event ≠ .dailyQuota →
      (generateSingleImageWithRetry oracle s).scene.statusMessage = none)
  ∧ ((generateSingleImageWithRetry oracle s).event = .dailyQuota →
      (generateSingleImageWithRetry oracle s).scene.statusMessage
        = some "Daily Limit Reached") :=
  ⟨fun h => (driverGo_status_of_event oracle 5 0 s 0).2 h,
   fun h => (driverGo_status_of_event oracle 5 0 s 0).1 h⟩

/-- Witness for C6 (amended): a success clears the status message; a
daily-quota failure leaves `"Daily Limit Reached"`. -/
theorem c6_amended_status_cleared_witness :
    (generateSingleImageWithRetry oracleOk sampleScene).scene.statusMessage = none
  ∧ (generateSingleImageWithRetry oracleDaily sampleScene).scene.statusMessage
      = some "Daily Limit Reached" :=
  ⟨(c6_amended_status_cleared oracleOk sampleScene).1 (by decide),
   (c6_amended_status_cleared oracleDaily sampleScene).2 (by decide)⟩

/-! ## Scheduler invariants for C1 and C2 -/

/-- Does some store record with id `j` currently have the running flag set? -/
def flaggedId (store : List Scene) (j : Nat) : Bool :=
  store.any (fun r => r.id == j && r.isLoadingImage)

/-- Invariant of the `runConcurrentGeneration` interleaving model, for a
batch with pairwise-distinct scene ids. -/
structure SchedInv (oracle : Nat → Nat → CallResult) (batch : List Scene)
    (st : SchedState) : Prop where
  workers_len : st.workers.length = launchCount batch.length
  distinct : ∀ (k1 k2 j1 j2 : Nat) (rem1 rem2 : List ScenePatch), k1 ≠ k2 →
    st.workers[k1]? = some (some (j1, rem1)) →
    st.workers[k2]? = some (some (j2, rem2)) → j1 ≠ j2
  cur_queue_disjoint : ∀ (k j : Nat) (rem : List ScenePatch),
    st.workers[k]? = some (some (j, rem)) →
    j ∉ st.queue.map Scene.id
  queue_nodup : (st.queue.map Scene.id).Nodup
  queue_batch : ∀ sc ∈ st.queue, sc ∈ batch
  cur_batch : ∀ (k j : Nat) (rem : List ScenePatch),
    st.workers[k]? = some (some (j, rem)) →
    j ∈ batch.map Scene.id
  inflight : ∀ (k j : Nat) (rem : List ScenePatch),
    st.workers[k]? = some (some (j, rem)) →
    ∃ sc applied, sc ∈ batch ∧ sc.id = j ∧
      jobTrace oracle sc = applied ++ rem ∧
      ∀ p, applied.getLast? = some p →
        ∀ r ∈ st.store, r.id = j → ∃ r0, r = applyPatch r0 p
  done : ∀ j ∈ batch.map Scene.id,
    (∀ (k j2 : Nat) (rem : List ScenePatch),
      st.workers[k]? = some (some (j2, rem)) → j2 ≠ j) →
    j ∉ st.queue.map Scene.id →
    ∀ r ∈ st.store, r.id = j →
      r.isLoadingImage = false ∧ (r.imageUrl ≠ none ∨ r.error ≠ none)

theorem sched_inv_init (oracle : Nat → Nat → CallResult)
    (batch store₀ : List Scene) (hnodup : (batch.map Scene.id).Nodup) :
    SchedInv oracle batch (initSched oracle batch store₀) := by
  set m := launchCount batch.length with hm
  have hids : batch.map Scene.id
      = (batch.take m).map Scene.id ++ (batch.drop m).map Scene.id := by
    rw [← List.map_append, List.take_append_drop]
  have hsplit := hids ▸ hnodup
  rw [List.nodup_append] at hsplit
  obtain ⟨htake_nd, hdrop_nd, hdisj⟩ := hsplit
  have hworker_elt : ∀ (k : Nat) (w : Nat × List ScenePatch),
      (initSched oracle batch store₀).workers[k]? = some (some w) →
      ∃ sc, (batch.take m)[k]? = some sc ∧ w.1 = sc.id
        ∧ w.2 = jobTrace oracle sc := by
    intro k w hw
    simp only [initSched, ← hm, List.getElem?_map] at hw
    cases hsc : (batch.take m)[k]? with
    | none => rw [hsc] at hw; simp at hw
    | some sc =>
      rw [hsc] at hw
      simp at hw
      exact ⟨sc, rfl, by rw [← hw], by rw [← hw]⟩
  refine ⟨?_, ?_, ?_, ?_, ?_, ?_, ?_, ?_⟩
  · simp only [initSched, ← hm, List.length_map, List.length_take]
    have hle : m ≤ batch.length := by
      rw [hm]
      exact launchCount_le batch.length
    omega
  · intro k1 k2 j1 j2 rem1 rem2 hk hw1 hw2
    obtain ⟨sc1, hsc1, hj1, -⟩ := hworker_elt k1 (j1, rem1) hw1
    obtain ⟨sc2, hsc2, hj2, -⟩ := hworker_elt k2 (j2, rem2) hw2
    obtain ⟨hlt1, he1⟩ := List.getElem?_eq_some.mp hsc1
    obtain ⟨hlt2, he2⟩ := List.getElem?_eq_some.mp hsc2
    intro hjj
    apply hk
    have hlt1m : k1 < ((batch.take m).map Scene.id).length := by simpa using hlt1
    have hlt2m : k2 < ((batch.take m).map Scene.id).length := by simpa using hlt2
    have hgets : ((batch.take m).map Scene.id).get ⟨k1, hlt1m⟩
        = ((batch.take m).map Scene.id).get ⟨k2, hlt2m⟩ := by
      simp only [List.get_eq_getElem, List.getElem_map]
      rw [he1, he2, ← hj1, ← hj2, hjj]
    have hfin : (⟨k1, hlt1m⟩ : Fin ((batch.take m).map Scene.id).length)
        = ⟨k2, hlt2m⟩ := by
      rw [List.get_eq_getElem, List.get_eq_getElem] at hgets
      exact Fin.ext ((htake_nd.getElem_inj_iff).mp hgets)
    exact congrArg Fin.val hfin
  · intro k j rem hw hmem
    obtain ⟨sc, hsc, hj, -⟩ := hworker_elt k (j, rem) hw
    have hsc_mem : sc ∈ batch.take m :=
      List.mem_iff_getElem?.mpr ⟨k, hsc⟩
    have : j ∈ (batch.take m).map Scene.id :=
      List.mem_map.mpr ⟨sc, hsc_mem, hj.symm⟩
    have hqids : (initSched oracle batch store₀).queue.map Scene.id
        = (batch.drop m).map Scene.id := by
      simp [initSched, ← hm]
    rw [hqids] at hmem
    exact hdisj this hmem
  · have : (initSched oracle batch store₀).queue = batch.drop m := by
      simp [initSched, ← hm]
    rw [this]
    exact hdrop_nd
  · intro sc hsc
    have : (initSched oracle batch store₀).queue = batch.drop m := by
      simp [initSched, ← hm]
    rw [this] at hsc
    exact List.mem_of_mem_drop hsc
  · intro k j rem hw
    obtain ⟨sc, hsc, hj, -⟩ := hworker_elt k (j, rem) hw
    have hsc_mem : sc ∈ batch :=
      List.mem_of_mem_take (List.mem_iff_getElem?.mpr ⟨k, hsc⟩)
    exact List.mem_map.mpr ⟨sc, hsc_mem, hj.symm⟩
  · intro k j rem hw
    obtain ⟨sc, hsc, hj, htr⟩ := hworker_elt k (j, rem) hw
    refine ⟨sc, [], List.mem_of_mem_take (List.mem_iff_getElem?.mpr ⟨k, hsc⟩),
      hj.symm, by simpa using htr.symm, ?_⟩
    intro p hp
    simp at hp
  · intro j hj hnoowner hnoqueue
    exfalso
    rw [hids] at hj
    rcases List.mem_append.mp hj with hj | hj
    · obtain ⟨sc, hsc, hid⟩ := List.mem_map.mp hj
      obtain ⟨k, hk⟩ := List.mem_iff_getElem?.mp hsc
      refine hnoowner k j (jobTrace oracle sc) ?_ rfl
      simp only [initSched, ← hm, List.getElem?_map, hk]
      simp [hid]
    · apply hnoqueue
      have : (initSched oracle batch store₀).queue = batch.drop m := by
        simp [initSched, ← hm]
      rw [this]
      exact hj

theorem applyPatch_id_of_none {r : Scene} {p : ScenePatch} (h : p.id = none) :
    (applyPatch r p).id = r.id := by
  simp [applyPatch, h]

theorem applyPatch_terminal {r0 : Scene} {p : ScenePatch} (h : terminalPatch p) :
    (applyPatch r0 p).isLoadingImage = false ∧
      ((applyPatch r0 p).imageUrl ≠ none ∨ (applyPatch r0 p).error ≠ none) := by
  obtain ⟨hflag, herr⟩ := h
  constructor
  · simp [applyPatch, hflag]
  · rcases herr with ⟨e, he⟩ | ⟨u, hu⟩
    · right; simp [applyPatch, he]
    · left; simp [applyPatch, hu]

theorem jobTrace_terminal (oracle : Nat → Nat → CallResult) (sc : Scene) :
    ∃ p, (jobTrace oracle sc).getLast? = some p ∧ terminalPatch p :=
  driverGo_trace_terminal (oracle sc.id) maxAttempts 0 sc 0

theorem jobTrace_id_none (oracle : Nat → Nat → CallResult) (sc : Scene)
    (p : ScenePatch) (hp : p ∈ jobTrace oracle sc) : p.id = none :=
  driverGo_trace_id_none (oracle sc.id) maxAttempts 0 sc 0 p hp

theorem mem_updateScene {store : List Scene} {j : Nat} {p : ScenePatch}
    {r' : Scene} (h : r' ∈ updateScene store j p) :
    ∃ r ∈ store, (r.id = j ∧ r' = applyPatch r p) ∨ (r.id ≠ j ∧ r' = r) := by
  obtain ⟨r, hr, hr'⟩ := List.mem_map.mp h
  by_cases hc : r.id = j
  · exact ⟨r, hr, Or.inl ⟨hc, by rw [← hr']; simp [hc]⟩⟩
  · exact ⟨r, hr, Or.inr ⟨hc, by rw [← hr']; simp [hc]⟩⟩

theorem updateScene_other_id {store : List Scene} {j : Nat} {p : ScenePatch}
    (hpid : p.id = none) {j' : Nat} (hne : j' ≠ j) :
    ∀ r' ∈ updateScene store j p, r'.id = j' → r' ∈ store := by
  intro r' hr' hid
  obtain ⟨r, hr, hcase⟩ := mem_updateScene hr'
  rcases hcase with ⟨hrj, heq⟩ | ⟨hrj, heq⟩
  · exfalso
    apply hne
    rw [← hid, heq, applyPatch_id_of_none hpid, hrj]
  · rw [heq]; exact hr

theorem sched_inv_step_update (oracle : Nat → Nat → CallResult)
    (batch : List Scene) (st : SchedState) (k j : Nat) (p : ScenePatch)
    (rem : List ScenePatch) (hinv : SchedInv oracle batch st)
    (hw : st.workers[k]? = some (some (j, p :: rem))) :
    SchedInv oracle batch
      { st with workers := st.workers.set k (some (j, rem))
                store := updateScene st.store j p } := by
  obtain ⟨hklt, -⟩ := List.getElem?_eq_some.mp hw
  have hlook : ∀ k' : Nat, (st.workers.set k (some (j, rem)))[k']?
      = if k = k' then some (some (j, rem)) else st.workers[k']? := by
    intro k'
    rw [List.getElem?_set]
    by_cases hkk : k = k'
    · simp only [hkk, if_true]
      rw [if_pos (hkk ▸ hklt)]
    · simp [hkk]
  have hown : ∀ (k' j' : Nat) (rem' : List ScenePatch),
      (st.workers.set k (some (j, rem)))[k']? = some (some (j', rem')) →
      ∃ rem'', st.workers[k']? = some (some (j', rem'')) := by
    intro k' j' rem' h
    rw [hlook] at h
    by_cases hkk : k = k'
    · rw [if_pos hkk] at h
      have hjj : j = j' ∧ rem = rem' := by simpa using h
      exact ⟨p :: rem, hkk ▸ (hjj.1 ▸ hw)⟩
    · rw [if_neg hkk] at h
      exact ⟨rem', h⟩
  obtain ⟨sc0, applied0, hsc0b, hsc0id, htr0, hlast0⟩ :=
    hinv.inflight k j (p :: rem) hw
  have hpid : p.id = none := by
    refine jobTrace_id_none oracle sc0 p ?_
    rw [htr0]
    simp
  have hframe : ∀ (j' : Nat), j' ≠ j →
      ∀ r' ∈ updateScene st.store j p, r'.id = j' → r' ∈ st.store :=
    fun j' hne => updateScene_other_id hpid hne
  refine ⟨?_, ?_, ?_, hinv.queue_nodup, hinv.queue_batch, ?_, ?_, ?_⟩
  · simp [List.length_set, hinv.workers_len]
  · intro k1 k2 j1 j2 rem1 rem2 hk h1 h2
    obtain ⟨r1, h1'⟩ := hown k1 j1 rem1 h1
    obtain ⟨r2, h2'⟩ := hown k2 j2 rem2 h2
    exact hinv.distinct k1 k2 j1 j2 r1 r2 hk h1' h2'
  · intro k' j' rem' h hmem
    obtain ⟨r', h'⟩ := hown k' j' rem' h
    exact hinv.cur_queue_disjoint k' j' r' h' hmem
  · intro k' j' rem' h
    obtain ⟨r', h'⟩ := hown k' j' rem' h
    exact hinv.cur_batch k' j' r' h'
  · intro k' j' rem' h
    by_cases hkk : k = k'
    · subst hkk
      rw [hlook, if_pos rfl] at h
      have hjj : j = j' ∧ rem = rem' := by simpa using h
      obtain ⟨hj', hrem'⟩ := hjj
      subst hj'
      subst hrem'
      refine ⟨sc0, applied0 ++ [p], hsc0b, hsc0id, ?_, ?_⟩
      · rw [htr0]
        simp
      · intro q hq r' hr' hid
        rw [List.getLast?_concat] at hq
        have hqp : q = p := by simpa using hq.symm
        subst hqp
        obtain ⟨r, hr, hcase⟩ := mem_updateScene hr'
        rcases hcase with ⟨hrj, heq⟩ | ⟨hrj, heq⟩
        · exact ⟨r, heq⟩
        · exact absurd (heq ▸ hid) hrj
    · rw [hlook, if_neg hkk] at h
      obtain ⟨sc', applied', hscb', hscid', htr', hlast'⟩ :=
        hinv.inflight k' j' rem' h
      refine ⟨sc', applied', hscb', hscid', htr', ?_⟩
      intro q hq r' hr' hid
      have hne : j' ≠ j :=
        hinv.distinct k' k j' j rem' (p :: rem) (fun he => hkk he.symm) h hw
      exact hlast' q hq r' (hframe j' hne r' hr' hid) hid
  · intro j3 hj3 hnoowner hnoq r' hr' hid
    have hjne : j ≠ j3 := by
      refine hnoowner k j rem ?_
      rw [hlook, if_pos rfl]
    have hnoowner_old : ∀ (k' j2 : Nat) (rem2 : List ScenePatch),
        st.workers[k']? = some (some (j2, rem2)) → j2 ≠ j3 := by
      intro k' j2 rem2 h'
      by_cases hkk : k = k'
      · have h2 : some (some (j, p :: rem)) = some (some (j2, rem2)) :=
          hw.symm.trans (hkk ▸ h')
        have hjj : j = j2 ∧ p :: rem = rem2 := by simpa using h2
        exact hjj.1 ▸ hjne
      · exact hnoowner k' j2 rem2 (by rw [hlook, if_neg hkk]; exact h')
    exact hinv.done j3 hj3 hnoowner_old hnoq r'
      (hframe j3 (Ne.symm hjne) r' hr' hid) hid

theorem sched_inv_finished_done (oracle : Nat → Nat → CallResult)
    (batch : List Scene) (st : SchedState) (k j : Nat)
    (hinv : SchedInv oracle batch st)
    (hw : st.workers[k]? = some (some (j, []))) :
    ∀ r ∈ st.store, r.id = j →
      r.isLoadingImage = false ∧ (r.imageUrl ≠ none ∨ r.error ≠ none) := by
  obtain ⟨sc0, applied0, hsc0b, hsc0id, htr0, hlast0⟩ := hinv.inflight k j [] hw
  obtain ⟨pterm, hpl, hpt⟩ := jobTrace_terminal oracle sc0
  rw [List.append_nil] at htr0
  intro r hr hid
  obtain ⟨r0, hr0⟩ := hlast0 pterm (by rw [← htr0]; exact hpl) r hr hid
  rw [hr0]
  exact applyPatch_terminal hpt

theorem sched_inv_step_next (oracle : Nat → Nat → CallResult)
    (batch : List Scene) (st : SchedState) (k j : Nat) (sc : Scene)
    (q' : List Scene) (hinv : SchedInv oracle batch st)
    (hw : st.workers[k]? = some (some (j, [])))
    (hq : st.queue = sc :: q') :
    SchedInv oracle batch
      { st with workers := st.workers.set k (some (sc.id, jobTrace oracle sc))
                queue := q' } := by
  obtain ⟨hklt, -⟩ := List.getElem?_eq_some.mp hw
  have hlook : ∀ k' : Nat,
      (st.workers.set k (some (sc.id, jobTrace oracle sc)))[k']?
      = if k = k' then some (some (sc.id, jobTrace oracle sc))
        else st.workers[k']? := by
    intro k'
    rw [List.getElem?_set]
    by_cases hkk : k = k'
    · simp only [hkk, if_true]
      rw [if_pos (hkk ▸ hklt)]
    · simp [hkk]
  have hscq : sc ∈ st.queue := by
    rw [hq]
    exact List.mem_cons_self sc q'
  have hscb : sc ∈ batch := hinv.queue_batch sc hscq
  have hscid_q : sc.id ∈ st.queue.map Scene.id := List.mem_map.mpr ⟨sc, hscq, rfl⟩
  have hcons : st.queue.map Scene.id = sc.id :: q'.map Scene.id := by
    rw [hq]
    rfl
  have hqnd := hinv.queue_nodup
  rw [hcons, List.nodup_cons] at hqnd
  have hfin := sched_inv_finished_done oracle batch st k j hinv hw
  refine ⟨?_, ?_, ?_, hqnd.2, ?_, ?_, ?_, ?_⟩
  · simp [List.length_set, hinv.workers_len]
  · intro k1 k2 j1 j2 rem1 rem2 hk h1 h2
    by_cases hk1 : k = k1
    · subst hk1
      rw [hlook, if_pos rfl] at h1
      have hjj : sc.id = j1 ∧ jobTrace oracle sc = rem1 := by simpa using h1
      rw [hlook, if_neg hk] at h2
      intro heq
      apply hinv.cur_queue_disjoint k2 j2 rem2 h2
      rw [← heq, ← hjj.1]
      exact hscid_q
    · rw [hlook, if_neg hk1] at h1
      by_cases hk2 : k = k2
      · subst hk2
        rw [hlook, if_pos rfl] at h2
        have hjj : sc.id = j2 ∧ jobTrace oracle sc = rem2 := by simpa using h2
        intro heq
        apply hinv.cur_queue_disjoint k1 j1 rem1 h1
        rw [heq, ← hjj.1]
        exact hscid_q
      · rw [hlook, if_neg hk2] at h2
        exact hinv.distinct k1 k2 j1 j2 rem1 rem2 hk h1 h2
  · intro k' j' rem' h hmem
    by_cases hkk : k = k'
    · subst hkk
      rw [hlook, if_pos rfl] at h
      have hjj : sc.id = j' ∧ jobTrace oracle sc = rem' := by simpa using h
      exact hqnd.1 (hjj.1 ▸ hmem)
    · rw [hlook, if_neg hkk] at h
      apply hinv.cur_queue_disjoint k' j' rem' h
      rw [hcons]
      exact List.mem_cons_of_mem _ hmem
  · intro sc2 hsc2
    refine hinv.queue_batch sc2 ?_
    rw [hq]
    exact List.mem_cons_of_mem _ hsc2
  · intro k' j' rem' h
    by_cases hkk : k = k'
    · subst hkk
      rw [hlook, if_pos rfl] at h
      have hjj : sc.id = j' ∧ jobTrace oracle sc = rem' := by simpa using h
      exact List.mem_map.mpr ⟨sc, hscb, hjj.1⟩
    · rw [hlook, if_neg hkk] at h
      exact hinv.cur_batch k' j' rem' h
  · intro k' j' rem' h
    by_cases hkk : k = k'
    · subst hkk
      rw [hlook, if_pos rfl] at h
      have hjj : sc.id = j' ∧ jobTrace oracle sc = rem' := by simpa using h
      refine ⟨sc, [], hscb, hjj.1, by rw [← hjj.2]; rfl, ?_⟩
      intro q hqq
      simp at hqq
    · rw [hlook, if_neg hkk] at h
      exact hinv.inflight k' j' rem' h
  · intro j3 hj3 hnoowner hnoq r hr hid
    by_cases hj3j : j3 = j
    · subst hj3j
      exact hfin r hr hid
    · have hnoowner_old : ∀ (k' j2 : Nat) (rem2 : List ScenePatch),
          st.workers[k']? = some (some (j2, rem2)) → j2 ≠ j3 := by
        intro k' j2 rem2 h'
        by_cases hkk : k = k'
        · have h2 : some (some (j, ([] : List ScenePatch)))
              = some (some (j2, rem2)) := hw.symm.trans (hkk ▸ h')
          have hjj : j = j2 ∧ ([] : List ScenePatch) = rem2 := by simpa using h2
          rw [← hjj.1]
          exact fun he => hj3j he.symm
        · exact hnoowner k' j2 rem2 (by rw [hlook, if_neg hkk]; exact h')
      have hscne : sc.id ≠ j3 := by
        refine hnoowner k sc.id (jobTrace oracle sc) ?_
        rw [hlook, if_pos rfl]
      have hnoq_old : j3 ∉ st.queue.map Scene.id := by
        rw [hcons]
        intro hmem
        rcases List.mem_cons.mp hmem with he | he
        · exact hscne he.symm
        · exact hnoq he
      exact hinv.done j3 hj3 hnoowner_old hnoq_old r hr hid

theorem sched_inv_step_exit (oracle : Nat → Nat → CallResult)
    (batch : List Scene) (st : SchedState) (k j : Nat)
    (hinv : SchedInv oracle batch st)
    (hw : st.workers[k]? = some (some (j, []))) :
    SchedInv oracle batch { st with workers := st.workers.set k none } := by
  obtain ⟨hklt, -⟩ := List.getElem?_eq_some.mp hw
  have hlook : ∀ k' : Nat, (st.workers.set k none)[k']?
      = if k = k' then some none else st.workers[k']? := by
    intro k'
    rw [List.getElem?_set]
    by_cases hkk : k = k'
    · simp only [hkk, if_true]
      rw [if_pos (hkk ▸ hklt)]
    · simp [hkk]
  have hown : ∀ (k' j' : Nat) (rem' : List ScenePatch),
      (st.workers.set k none)[k']? = some (some (j', rem')) →
      st.workers[k']? = some (some (j', rem')) ∧ k ≠ k' := by
    intro k' j' rem' h
    rw [hlook] at h
    by_cases hkk : k = k'
    · rw [if_pos hkk] at h
      simp at h
    · rw [if_neg hkk] at h
      exact ⟨h, hkk⟩
  have hfin := sched_inv_finished_done oracle batch st k j hinv hw
  refine ⟨?_, ?_, ?_, hinv.queue_nodup, hinv.queue_batch, ?_, ?_, ?_⟩
  · simp [List.length_set, hinv.workers_len]
  · intro k1 k2 j1 j2 rem1 rem2 hk h1 h2
    exact hinv.distinct k1 k2 j1 j2 rem1 rem2 hk (hown k1 j1 rem1 h1).1
      (hown k2 j2 rem2 h2).1
  · intro k' j' rem' h hmem
    exact hinv.cur_queue_disjoint k' j' rem' (hown k' j' rem' h).1 hmem
  · intro k' j' rem' h
    exact hinv.cur_batch k' j' rem' (hown k' j' rem' h).1
  · intro k' j' rem' h
    exact hinv.inflight k' j' rem' (hown k' j' rem' h).1
  · intro j3 hj3 hnoowner hnoq r hr hid
    by_cases hj3j : j3 = j
    · subst hj3j
      exact hfin r hr hid
    · have hnoowner_old : ∀ (k' j2 : Nat) (rem2 : List ScenePatch),
          st.workers[k']? = some (some (j2, rem2)) → j2 ≠ j3 := by
        intro k' j2 rem2 h'
        by_cases hkk : k = k'
        · have h2 : some (some (j, ([] : List ScenePatch)))
              = some (some (j2, rem2)) := hw.symm.trans (hkk ▸ h')
          have hjj : j = j2 ∧ ([] : List ScenePatch) = rem2 := by simpa using h2
          rw [← hjj.1]
          exact fun he => hj3j he.symm
        · exact hnoowner k' j2 rem2 (by rw [hlook, if_neg hkk]; exact h')
      exact hinv.done j3 hj3 hnoowner_old hnoq r hr hid

theorem sched_inv_step (oracle : Nat → Nat → CallResult) (batch : List Scene)
    (st st' : SchedState) (hinv : SchedInv oracle batch st)
    (hstep : SchedStep oracle st st') : SchedInv oracle batch st' := by
  cases hstep with
  | update k j p rem hw =>
    exact sched_inv_step_update oracle batch st k j p rem hinv hw
  | next k j sc q' hw hq =>
    exact sched_inv_step_next oracle batch st k j sc q' hinv hw hq
  | exit k j hw hq =>
    exact sched_inv_step_exit oracle batch st k j hinv hw

theorem sched_inv_reachable (oracle : Nat → Nat → CallResult)
    (batch store₀ : List Scene) (st : SchedState)
    (hnodup : (batch.map Scene.id).Nodup)
    (h : SchedReaches oracle batch store₀ st) : SchedInv oracle batch st := by
  induction h with
  | refl => exact sched_inv_init oracle batch store₀ hnodup
  | tail hsteps hstep ih => exact sched_inv_step oracle batch _ _ ih hstep

/-! ## C1: every job of a resolved batch is terminal -/

/-- C1: when a `runConcurrentGeneration` batch call resolves (queue drained,
all worker loops exited), every store record carrying a batch id has a result
(`imageUrl`) or an error (`error`) set, and `isLoadingImage` is false. -/
theorem c1_batch_terminal_state (oracle : Nat → Nat → CallResult)
    (batch store₀ : List Scene) (st : SchedState)
    (hnodup : (batch.map Scene.id).Nodup)
    (hreach : SchedReaches oracle batch store₀ st)
    (hdone : SchedDone st) :
    ∀ r ∈ st.store, r.id ∈ batch.map Scene.id →
      r.isLoadingImage = false ∧ (r.imageUrl ≠ none ∨ r.error ≠ none) := by
  have hinv := sched_inv_reachable oracle batch store₀ st hnodup hreach
  intro r hr hid
  refine hinv.done r.id hid ?_ ?_ r hr rfl
  · intro k j2 rem h
    have hmem : (some (j2, rem) : Option (Nat × List ScenePatch)) ∈ st.workers :=
      List.mem_iff_getElem?.mpr ⟨k, h⟩
    have := hdone.2 _ hmem
    simp at this
  · rw [hdone.1]
    simp

/-! ## C2: concurrency bound -/

/-- At most one store record per batch id has the flag set, and each flagged
batch id is owned by some worker. -/
def FlagInv (batch : List Scene) (st : SchedState) : Prop :=
  ∀ j ∈ batch.map Scene.id, flaggedId st.store j = true →
    ∃ (k : Nat) (rem : List ScenePatch), st.workers[k]? = some (some (j, rem))

theorem flaggedId_iff {store : List Scene} {j : Nat} :
    flaggedId store j = true ↔
      ∃ r ∈ store, r.id = j ∧ r.isLoadingImage = true := by
  simp [flaggedId, List.any_eq_true, Bool.and_eq_true]

theorem flaginv_finished_false (oracle : Nat → Nat → CallResult)
    (batch : List Scene) (st : SchedState) (k j : Nat)
    (hinv : SchedInv oracle batch st)
    (hw : st.workers[k]? = some (some (j, []))) :
    flaggedId st.store j = false := by
  by_contra h
  rw [Bool.not_eq_false, flaggedId_iff] at h
  obtain ⟨r, hr, hid, hflag⟩ := h
  have := (sched_inv_finished_done oracle batch st k j hinv hw r hr hid).1
  rw [this] at hflag
  exact Bool.false_ne_true hflag

theorem flaginv_step (oracle : Nat → Nat → CallResult) (batch : List Scene)
    (st st' : SchedState) (hinv : SchedInv oracle batch st)
    (hflag : FlagInv batch st) (hstep : SchedStep oracle st st') :
    FlagInv batch st' := by
  cases hstep with
  | update k j p rem hw =>
    obtain ⟨hklt, -⟩ := List.getElem?_eq_some.mp hw
    obtain ⟨sc0, applied0, hsc0b, hsc0id, htr0, hlast0⟩ :=
      hinv.inflight k j (p :: rem) hw
    have hpid : p.id = none := by
      refine jobTrace_id_none oracle sc0 p ?_
      rw [htr0]
      simp
    intro j3 hj3 hf
    by_cases hj3j : j3 = j
    · subst hj3j
      refine ⟨k, rem, ?_⟩
      rw [List.getElem?_set]
      simp [hklt]
    · have hold : flaggedId st.store j3 = true := by
        rw [flaggedId_iff] at hf ⊢
        obtain ⟨r', hr', hid', hflag'⟩ := hf
        exact ⟨r', updateScene_other_id hpid hj3j r' hr' hid', hid', hflag'⟩
      obtain ⟨k', rem', hk'⟩ := hflag j3 hj3 hold
      have hkne : k ≠ k' := by
        intro he
        have h2 : some (some (j, p :: rem)) = some (some (j3, rem')) :=
          hw.symm.trans (he ▸ hk')
        have hjj : j = j3 ∧ p :: rem = rem' := by simpa using h2
        exact hj3j hjj.1.symm
      refine ⟨k', rem', ?_⟩
      rw [List.getElem?_set]
      simp [hkne]
      exact hk'
  | next k j sc q' hw hq =>
    obtain ⟨hklt, -⟩ := List.getElem?_eq_some.mp hw
    intro j3 hj3 hf
    obtain ⟨k', rem', hk'⟩ := hflag j3 hj3 hf
    by_cases hkk : k = k'
    · exfalso
      have h2 : some (some (j, ([] : List ScenePatch)))
          = some (some (j3, rem')) := hw.symm.trans (hkk ▸ hk')
      have hjj : j = j3 ∧ ([] : List ScenePatch) = rem' := by simpa using h2
      have := flaginv_finished_false oracle batch st k j hinv hw
      rw [hjj.1] at this
      rw [this] at hf
      exact Bool.false_ne_true hf
    · refine ⟨k', rem', ?_⟩
      rw [List.getElem?_set]
      simp [hkk]
      exact hk'
  | exit k j hw hq =>
    obtain ⟨hklt, -⟩ := List.getElem?_eq_some.mp hw
    intro j3 hj3 hf
    obtain ⟨k', rem', hk'⟩ := hflag j3 hj3 hf
    by_cases hkk : k = k'
    · exfalso
      have h2 : some (some (j, ([] : List ScenePatch)))
          = some (some (j3, rem')) := hw.symm.trans (hkk ▸ hk')
      have hjj : j = j3 ∧ ([] : List ScenePatch) = rem' := by simpa using h2
      have := flaginv_finished_false oracle batch st k j hinv hw
      rw [hjj.1] at this
      rw [this] at hf
      exact Bool.false_ne_true hf
    · refine ⟨k', rem', ?_⟩
      rw [List.getElem?_set]
      simp [hkk]
      exact hk'

theorem flaginv_reachable (oracle : Nat → Nat → CallResult)
    (batch store₀ : List Scene) (st : SchedState)
    (hnodup : (batch.map Scene.id).Nodup)
    (hclear : ∀ r ∈ store₀, r.id ∈ batch.map Scene.id → r.isLoadingImage = false)
    (hreach : SchedReaches oracle batch store₀ st) : FlagInv batch st := by
  induction hreach with
  | refl =>
    intro j3 hj3 hf
    exfalso
    rw [flaggedId_iff] at hf
    obtain ⟨r, hr, hid, hflag⟩ := hf
    have := hclear r hr (hid ▸ hj3)
    rw [this] at hflag
    exact Bool.false_ne_true hflag
  | tail hsteps hstep ih =>
    exact flaginv_step oracle batch _ _
      (sched_inv_reachable oracle batch store₀ _ hnodup hsteps) ih hstep

/-- C2 as amended: the launch loop starts
`launchCount N = min(CONCURRENCY_LIMIT, ⌈N/2⌉)` worker loops — not
`min(CONCURRENCY_LIMIT, N)` — because its bound
`Math.min(CONCURRENCY_LIMIT, queue.length)` is re-evaluated while each
synchronously started worker shifts the queue; and at every reachable point
of the interleaving at most `min(CONCURRENCY_LIMIT, N)` batch jobs
simultaneously have `isLoadingImage = true` (provided the batch ids are
distinct and none of them is already flagged when the batch starts). -/
theorem c2_amended_concurrency_bound (oracle : Nat → Nat → CallResult)
    (batch store₀ : List Scene) (st : SchedState)
    (hnodup : (batch.map Scene.id).Nodup)
    (hclear : ∀ r ∈ store₀, r.id ∈ batch.map Scene.id → r.isLoadingImage = false)
    (hreach : SchedReaches oracle batch store₀ st) :
    (initSched oracle batch store₀).workers.length = launchCount batch.length
  ∧ launchCount batch.length = min CONCURRENCY_LIMIT ((batch.length + 1) / 2)
  ∧ ((batch.map Scene.id).toFinset.filter
        (fun j => flaggedId st.store j = true)).card
      ≤ min CONCURRENCY_LIMIT batch.length := by
  have hinv := sched_inv_reachable oracle batch store₀ st hnodup hreach
  have hflag := flaginv_reachable oracle batch store₀ st hnodup hclear hreach
  refine ⟨(sched_inv_init oracle batch store₀ hnodup).workers_len,
    launchCount_closed_form batch.length, ?_⟩
  classical
  set F : Nat → Nat := fun j =>
    if h : ∃ k : Nat, ∃ rem : List ScenePatch,
        st.workers[k]? = some (some (j, rem)) then h.choose
    else 0 with hF
  have hFprop : ∀ j : Nat,
      (∃ (k : Nat) (rem : List ScenePatch),
        st.workers[k]? = some (some (j, rem))) →
      ∃ rem : List ScenePatch, st.workers[F j]? = some (some (j, rem)) := by
    intro j hj
    obtain ⟨k, rem, hk⟩ := hj
    have hex : ∃ k : Nat, ∃ rem : List ScenePatch,
        st.workers[k]? = some (some (j, rem)) := ⟨k, rem, hk⟩
    simp only [hF, dif_pos hex]
    exact hex.choose_spec
  have hcard : ((batch.map Scene.id).toFinset.filter
      (fun j => flaggedId st.store j = true)).card
      ≤ (Finset.range st.workers.length).card := by
    refine Finset.card_le_card_of_injOn F ?_ ?_
    · intro j hj
      rw [Finset.mem_filter, List.mem_toFinset] at hj
      obtain ⟨rem, hk⟩ := hFprop j (hflag j hj.1 hj.2)
      rw [Finset.mem_range]
      exact (List.getElem?_eq_some.mp hk).1
    · intro j1 hj1 j2 hj2 he
      rw [Finset.mem_coe, Finset.mem_filter, List.mem_toFinset] at hj1 hj2
      obtain ⟨rem1, hk1⟩ := hFprop j1 (hflag j1 hj1.1 hj1.2)
      obtain ⟨rem2, hk2⟩ := hFprop j2 (hflag j2 hj2.1 hj2.2)
      rw [he] at hk1
      have h2 : some (some (j1, rem1)) = some (some (j2, rem2)) :=
        hk1.symm.trans hk2
      have hjj : j1 = j2 ∧ rem1 = rem2 := by simpa using h2
      exact hjj.1
  rw [Finset.card_range, hinv.workers_len] at hcard
  exact le_trans hcard (launchCount_le_min batch.length)

/-! ## Concrete scheduler run for the C1 and C2 witnesses -/

/-- A two-argument oracle (job id, call index) that always succeeds. -/
def schedOracle : Nat → Nat → CallResult := fun _ _ => .ok "img"

/-- A one-job batch. -/
def c1Batch : List Scene := [sampleScene]

/-- Counterexample for C2: the launch loop does not start `min(C, N)` worker
loops.  Its test `i < Math.min(CONCURRENCY_LIMIT, queue.length)` is
re-evaluated after each `processNext()` has synchronously shifted one scene
off the queue, so a 2-job batch launches only one worker loop, not
`min(3, 2) = 2`. -/
theorem c2_counterexample :
    (initSched schedOracle [sampleScene, sampleScene2]
        [sampleScene, sampleScene2]).workers.length = 1
  ∧ min CONCURRENCY_LIMIT ([sampleScene, sampleScene2] : List Scene).length = 2
  ∧ (1 : Nat) ≠ 2 :=
  ⟨by decide, by decide, by decide⟩

/-- Store after the driver's first update. -/
def c1Store1 : List Scene := updateScene [sampleScene] 0 (pStart 0)

/-- Store after the driver's success update. -/
def c1Store2 : List Scene := updateScene c1Store1 0 (pSuccess "img")

/-- Interleaving state after the first driver update. -/
def c1St1 : SchedState :=
  { queue := [], workers := [some (0, [pSuccess "img"])], store := c1Store1 }

/-- Interleaving state after the success update. -/
def c1St2 : SchedState :=
  { queue := [], workers := [some (0, [])], store := c1Store2 }

/-- Interleaving state after the worker loop exits. -/
def c1St3 : SchedState :=
  { queue := [], workers := [none], store := c1Store2 }

/-- Witness for C1: a concrete one-job batch run to completion; in the
resolved state the job's record has its result set and the flag off. -/
theorem c1_batch_terminal_state_witness :
    (applyPatch (applyPatch sampleScene (pStart 0)) (pSuccess "img")).isLoadingImage
        = false
  ∧ ((applyPatch (applyPatch sampleScene (pStart 0)) (pSuccess "img")).imageUrl
        ≠ none
      ∨ (applyPatch (applyPatch sampleScene (pStart 0)) (pSuccess "img")).error
        ≠ none) := by
  have h1 : SchedStep schedOracle (initSched schedOracle c1Batch c1Batch) c1St1 :=
    SchedStep.update _ 0 0 (pStart 0) [pSuccess "img"] (by decide)
  have h2 : SchedStep schedOracle c1St1 c1St2 :=
    SchedStep.update _ 0 0 (pSuccess "img") [] (by decide)
  have h3 : SchedStep schedOracle c1St2 c1St3 :=
    SchedStep.exit _ 0 0 (by decide) rfl
  have hreach : SchedReaches schedOracle c1Batch c1Batch c1St3 :=
    ((Relation.ReflTransGen.refl.tail h1).tail h2).tail h3
  exact c1_batch_terminal_state schedOracle c1Batch c1Batch c1St3 (by decide)
    hreach ⟨rfl, by decide⟩
    (applyPatch (applyPatch sampleScene (pStart 0)) (pSuccess "img"))
    (by decide) (by decide)

/-- Witness for C2 (amended): the one-job batch launches
`launchCount 1 = 1` worker, and in the state after the driver's first update
exactly one batch id is flagged, within the `min(3, 1)` bound. -/
theorem c2_amended_concurrency_bound_witness :
    (initSched schedOracle c1Batch c1Batch).workers.length
        = launchCount c1Batch.length
  ∧ launchCount c1Batch.length
        = min CONCURRENCY_LIMIT ((c1Batch.length + 1) / 2)
  ∧ ((c1Batch.map Scene.id).toFinset.filter
        (fun j => flaggedId c1St1.store j = true)).card
      ≤ min CONCURRENCY_LIMIT c1Batch.length := by
  have h1 : SchedStep schedOracle (initSched schedOracle c1Batch c1Batch) c1St1 :=
    SchedStep.update _ 0 0 (pStart 0) [pSuccess "img"] (by decide)
  exact c2_amended_concurrency_bound schedOracle c1Batch c1Batch c1St1 (by decide)
    (by decide) (Relation.ReflTransGen.refl.tail h1)

end VideoMaker
